import Mathlib

/-!
Verification of the Protocol-POH reward settlement engine.

Shallow embedding of the core money-moving code of the repository:

* `backend/app/services/twab.py` — time-weighted average balance,
* `backend/app/services/distribution.py` — distribution planner, lock,
  transfer executor, ledger and reconciliation,
* `backend/app/services/buyback.py` — revenue ingestion and buyback pipeline,
* `backend/app/utils/solana_tx.py` — transaction submission with retry.

Conventions of the embedding:

* Python `Decimal` values are modelled as exact rationals (`ℚ`).  The code
  runs in Python's default `Decimal` context (28 significant digits); all
  quantities handled by the engine are far below the range where that
  rounding differs from exact arithmetic, so the model treats the
  arithmetic as exact.
* Python `int(...)` applied to a `Decimal` truncates toward zero and is
  modelled by `pyInt`.
* Python truthiness of `Optional[str]` values (`if s:`) is `pyTruthyStr`:
  both `None` and the empty string are falsy.
* Timestamps are rational numbers of seconds; `datetime` subtraction with
  `.total_seconds()` becomes rational subtraction.
* Async database / network effects are modelled by explicit state passing
  and by environment records supplying the outcome of each external call.
-/

/-- Python `int(q)` on an exact rational: truncation toward zero
(floor for non-negative values, ceiling for negative values). -/
def pyInt (q : ℚ) : ℤ := if 0 ≤ q then ⌊q⌋ else ⌈q⌉

/-- Python truthiness of an `Optional[str]`: `None` and `""` are falsy. -/
def pyTruthyStr : Option String → Bool
  | none => false
  | some s => s ≠ ""

/-- Python `a or b` for an `Optional[str]` left operand and string default. -/
def pyOrStr (a : Option String) (b : String) : String :=
  match a with
  | some s => if s ≠ "" then s else b
  | none => b

theorem pyInt_eq_floor {q : ℚ} (h : 0 ≤ q) : pyInt q = ⌊q⌋ := by
  simp [pyInt, h]

theorem pyInt_nonneg {q : ℚ} (h : 0 ≤ q) : 0 ≤ pyInt q := by
  rw [pyInt_eq_floor h]
  exact Int.floor_nonneg.mpr h

/-! ## TWAB computation (`twab.py`, `TWABService._compute_twab`)

A balance history is a list of `(timestamp, balance)` pairs, as returned by
the snapshot query ordered by timestamp ascending.  Timestamps are seconds
(exact rationals), balances are raw integer token amounts. -/

/-- Contribution of one forward-fill segment `[ts, segEnd)` to the weighted
sum, exactly as the loop body of `_compute_twab` computes it: clamp the
segment to the window and add `balance * duration` only when the clamped
duration is positive. -/
def segmentTerm (wstart wend ts segEnd : ℚ) (balance : ℤ) : ℚ :=
  let seg_start := max ts wstart
  let seg_end := min segEnd wend
  let duration := seg_end - seg_start
  if 0 < duration then (balance : ℚ) * duration else 0

/-- End of the forward-fill segment that starts at the current sample:
the next sample's timestamp, or the window end for the last sample. -/
def nextSegEnd (rest : List (ℚ × ℤ)) (wend : ℚ) : ℚ :=
  match rest with
  | [] => wend
  | (ts2, _) :: _ => ts2

/-- The weighted sum of the multi-sample loop in `_compute_twab`:
sample `i` is forward-filled until the next sample's timestamp (window end
for the last sample). -/
def weightedSum : List (ℚ × ℤ) → ℚ → ℚ → ℚ
  | [], _, _ => 0
  | (ts, b) :: rest, wstart, wend =>
      segmentTerm wstart wend ts (nextSegEnd rest wend) b + weightedSum rest wstart wend

/-- `TWABService._compute_twab` from `twab.py`.  The empty-history and
non-positive-window guards, the dedicated single-sample branch, and the
multi-sample forward-fill loop are translated branch for branch. -/
def compute_twab (balances : List (ℚ × ℤ)) (wstart wend : ℚ) : ℤ :=
  if balances.isEmpty then 0
  else
    let total_duration := wend - wstart
    if total_duration ≤ 0 then 0
    else
      match balances with
      | [(ts, b)] =>
          let seg_start := max ts wstart
          let duration := wend - seg_start
          if duration ≤ 0 then 0
          else pyInt ((b : ℚ) * duration / total_duration)
      | _ => pyInt (weightedSum balances wstart wend / total_duration)

/-- The spec's clamped non-negative overlap of a forward-fill segment
`[ts, segEnd)` with the window `[wstart, wend)`. -/
def clampedOverlap (wstart wend ts segEnd : ℚ) : ℚ :=
  max 0 (min segEnd wend - max ts wstart)

/-- The spec's formula `Σ (balance_i × duration_i)` with `duration_i` the
clamped non-negative overlap of segment `i` with the window. -/
def specTwabSum : List (ℚ × ℤ) → ℚ → ℚ → ℚ
  | [], _, _ => 0
  | (ts, b) :: rest, wstart, wend =>
      (b : ℚ) * clampedOverlap wstart wend ts (nextSegEnd rest wend) + specTwabSum rest wstart wend

theorem segmentTerm_eq_clampedOverlap (wstart wend ts segEnd : ℚ) (b : ℤ) :
    segmentTerm wstart wend ts segEnd b = (b : ℚ) * clampedOverlap wstart wend ts segEnd := by
  rw [segmentTerm, clampedOverlap]
  by_cases h : 0 < min segEnd wend - max ts wstart
  · rw [if_pos h, max_eq_right h.le]
  · rw [if_neg h, max_eq_left (le_of_not_lt h), mul_zero]

theorem weightedSum_eq_specTwabSum (balances : List (ℚ × ℤ)) (wstart wend : ℚ) :
    weightedSum balances wstart wend = specTwabSum balances wstart wend := by
  induction balances with
  | nil => rfl
  | cons hd tl ih =>
      obtain ⟨ts, b⟩ := hd
      rw [weightedSum, specTwabSum, segmentTerm_eq_clampedOverlap, ih]

theorem pyInt_intCast (n : ℤ) : pyInt ((n : ℤ) : ℚ) = n := by
  unfold pyInt
  split <;> simp

/-- Claim C4: for every window `[start, end)` with `end > start` and every
sample list, `_compute_twab` equals the integer truncation of
`Σ (balance_i × duration_i) / total_window_duration` under forward-fill,
with `duration_i` the clamped non-negative overlap of segment `i` with the
window; an empty sample list or a window of non-positive duration yields 0;
and a single sample of balance `B` at 75% through the window yields
`TWAB = B × 0.25` (stated for `B` divisible by 4, where the truncation is
exact). -/
theorem C4_twab_formula :
    (∀ (balances : List (ℚ × ℤ)) (wstart wend : ℚ), wstart < wend →
        compute_twab balances wstart wend
          = pyInt (specTwabSum balances wstart wend / (wend - wstart)))
    ∧ (∀ (wstart wend : ℚ), compute_twab [] wstart wend = 0)
    ∧ (∀ (balances : List (ℚ × ℤ)) (wstart wend : ℚ), wend - wstart ≤ 0 →
        compute_twab balances wstart wend = 0)
    ∧ (∀ b : ℤ, (4 : ℤ) ∣ b →
        ((compute_twab [((75 : ℚ), b)] 0 100 : ℤ) : ℚ) = (b : ℚ) * (25 / 100)) := by
  refine ⟨?_, ?_, ?_, ?_⟩
  · intro balances wstart wend hlt
    have hT : ¬(wend - wstart ≤ 0) := by linarith
    match balances with
    | [] =>
        simp [compute_twab, specTwabSum, pyInt]
    | [(ts, b)] =>
        rw [compute_twab]
        simp only [List.isEmpty_cons, if_false, Bool.false_eq_true, if_neg hT]
        rw [specTwabSum, specTwabSum, nextSegEnd, clampedOverlap, min_self, add_zero]
        by_cases hd : wend - max ts wstart ≤ 0
        · rw [if_pos hd, max_eq_left hd]
          simp [pyInt]
        · rw [if_neg hd, max_eq_right (le_of_not_le hd)]
    | (ts₁, b₁) :: (ts₂, b₂) :: rest =>
        rw [compute_twab]
        simp only [List.isEmpty_cons, if_false, Bool.false_eq_true, if_neg hT]
        rw [weightedSum_eq_specTwabSum]
  · intro wstart wend
    simp [compute_twab]
  · intro balances wstart wend hT
    match balances with
    | [] => simp [compute_twab]
    | [(ts, b)] => simp [compute_twab, hT]
    | (ts₁, b₁) :: (ts₂, b₂) :: rest => simp [compute_twab, hT]
  · intro b hb
    obtain ⟨k, rfl⟩ := hb
    have h1 : compute_twab [((75 : ℚ), 4 * k)] 0 100 = pyInt ((k : ℤ) : ℚ) := by
      rw [compute_twab]
      have h75 : max (75 : ℚ) 0 = 75 := by norm_num
      have harg : (((4 * k : ℤ) : ℚ)) * (100 - 75) / (100 - 0) = ((k : ℤ) : ℚ) := by
        push_cast
        ring
      simp only [List.isEmpty_cons, if_false, Bool.false_eq_true, h75, harg]
      norm_num
    rw [h1, pyInt_intCast]
    push_cast
    ring

/-- Witness for C4 at a concrete input: one sample of balance 1000 placed
75% through the window `[0, 100)`; the general formula applies and the
computed TWAB is 250 = 1000 × 0.25. -/
theorem C4_twab_formula_witness :
    compute_twab [((75 : ℚ), 1000)] 0 100
        = pyInt (specTwabSum [((75 : ℚ), 1000)] 0 100 / (100 - 0))
    ∧ ((compute_twab [((75 : ℚ), 1000)] 0 100 : ℤ) : ℚ) = (1000 : ℚ) * (25 / 100)
    ∧ compute_twab [((75 : ℚ), 1000)] 0 100 = 250 := by
  refine ⟨C4_twab_formula.1 _ 0 100 (by norm_num),
          C4_twab_formula.2.2.2 1000 (by norm_num), ?_⟩
  have h := C4_twab_formula.2.2.2 1000 (by norm_num)
  have h2 : ((compute_twab [((75 : ℚ), 1000)] 0 100 : ℤ) : ℚ) = ((250 : ℤ) : ℚ) := by
    rw [h]
    norm_num
  exact_mod_cast h2

/-! ## Distribution planner (`distribution.py`, `calculate_distribution`)

Hash powers are produced by `TWABService.calculate_all_hash_powers`
(`hash_power = Decimal(twab) * Decimal(str(multiplier))`, non-negative in
every reachable state).  `calculate_distribution` receives the pool amount,
the pool USD value and trigger type (both irrelevant to the arithmetic and
passed through), and the hash-power list. -/

/-- `HashPowerInfo` from `twab.py` (tier fields omitted: the planner only
reads `wallet`, `twab`, `multiplier`, `hash_power`). -/
structure HashPowerInfo where
  wallet : String
  twab : ℤ
  multiplier : ℚ
  hash_power : ℚ
deriving DecidableEq, Repr

/-- `RecipientShare` from `distribution.py`. -/
structure RecipientShare where
  wallet : String
  twab : ℤ
  multiplier : ℚ
  hash_power : ℚ
  share_percentage : ℚ
  amount : ℤ
deriving DecidableEq, Repr

/-- `DistributionPlan` from `distribution.py`. -/
structure DistributionPlan where
  pool_amount : ℤ
  pool_value_usd : ℚ
  total_hashpower : ℚ
  recipient_count : ℕ
  trigger_type : String
  recipients : List RecipientShare
deriving DecidableEq, Repr

/-- `total_hp = sum(hp.hash_power for hp in hash_powers)`. -/
def totalHashPower (hps : List HashPowerInfo) : ℚ :=
  (hps.map (fun hp => hp.hash_power)).sum

/-- Sum of the `amount` fields of a recipient list. -/
def sumAmounts (rs : List RecipientShare) : ℤ :=
  (rs.map (fun r => r.amount)).sum

/-- First pass of `calculate_distribution`: the truncated share of one
hash-power entry (`share_pct = hp.hash_power / total_hp`;
`amount = int(Decimal(pool_amount) * share_pct)`). -/
def initialShare (pool_amount : ℤ) (total_hp : ℚ) (hp : HashPowerInfo) : RecipientShare :=
  let share_pct := hp.hash_power / total_hp
  { wallet := hp.wallet
    twab := hp.twab
    multiplier := hp.multiplier
    hash_power := hp.hash_power
    share_percentage := share_pct * 100
    amount := pyInt ((pool_amount : ℚ) * share_pct) }

/-- Insert into a descending-by-`hash_power` list, before the first element
whose hash power is `≤` the inserted one (so earlier-inserted equal keys
stay in front: the stable tie-break). -/
def insertDesc (r : RecipientShare) : List RecipientShare → List RecipientShare
  | [] => [r]
  | x :: xs => if x.hash_power ≤ r.hash_power then r :: x :: xs else x :: insertDesc r xs

/-- `recipients.sort(key=lambda x: x.hash_power, reverse=True)`: a stable
descending sort by hash power.  Python's `list.sort` is stable; any stable
sort with the same key produces the identical output list, so this
insertion sort is an exact model of it. -/
def sortByHashPowerDesc : List RecipientShare → List RecipientShare
  | [] => []
  | a :: as => insertDesc a (sortByHashPowerDesc as)

/-- One step of the remainder loop: add one token to the recipient at
index `idx` (out-of-range indices leave the list unchanged; the loop only
uses `i % len`, which is always in range). -/
def bumpAmount : List RecipientShare → ℕ → List RecipientShare
  | [], _ => []
  | r :: rs, 0 => { r with amount := r.amount + 1 } :: rs
  | r :: rs, n + 1 => r :: bumpAmount rs n

/-- `for i in range(remainder): idx = i % len(recipients); ... amount + 1`. -/
def distributeRemainder (rs : List RecipientShare) (rem : ℕ) : List RecipientShare :=
  (List.range rem).foldl (fun acc i => bumpAmount acc (i % acc.length)) rs

/-- Recipient pipeline of `calculate_distribution` (`distribution.py`,
lines 311-360): truncated first pass; stable descending sort and
one-token-at-a-time remainder distribution when `remainder > 0`; dust
filter (`amount > 0`). -/
def planRecipients (pool_amount : ℤ) (hash_powers : List HashPowerInfo) :
    List RecipientShare :=
  let total_hp := totalHashPower hash_powers
  let recipients := hash_powers.map (initialShare pool_amount total_hp)
  let total_distributed := sumAmounts recipients
  let remainder := pool_amount - total_distributed
  let recipients' :=
    if 0 < remainder ∧ recipients ≠ [] then
      distributeRemainder (sortByHashPowerDesc recipients) remainder.toNat
    else recipients
  recipients'.filter (fun r => 0 < r.amount)

/-- `DistributionService.calculate_distribution` from `distribution.py`,
lines 259-369: guards for an empty pool, an empty hash-power list
(`if not hash_powers: return None`) and a non-positive total hash power;
then the recipient pipeline and plan assembly.  `pool_value_usd` and
`trigger_type` are computed by other services and enter the plan
unchanged. -/
def calculate_distribution (pool_amount : ℤ) (pool_value_usd : ℚ)
    (trigger_type : String) (hash_powers : List HashPowerInfo) :
    Option DistributionPlan :=
  if pool_amount ≤ 0 then none
  else if hash_powers.isEmpty then none
  else if totalHashPower hash_powers ≤ 0 then none
  else
    let final := planRecipients pool_amount hash_powers
    some { pool_amount := pool_amount
           pool_value_usd := pool_value_usd
           total_hashpower := totalHashPower hash_powers
           recipient_count := final.length
           trigger_type := trigger_type
           recipients := final }

theorem sumAmounts_nil : sumAmounts [] = 0 := rfl

theorem sumAmounts_cons (r : RecipientShare) (rs : List RecipientShare) :
    sumAmounts (r :: rs) = r.amount + sumAmounts rs := by
  simp [sumAmounts]

theorem sum_floor_le_floor_sum (l : List ℚ) :
    (l.map (fun q => ⌊q⌋)).sum ≤ ⌊l.sum⌋ := by
  induction l with
  | nil => simp
  | cons h t ih =>
      simp only [List.map_cons, List.sum_cons]
      calc ⌊h⌋ + (t.map (fun q => ⌊q⌋)).sum ≤ ⌊h⌋ + ⌊t.sum⌋ := by omega
        _ ≤ ⌊h + t.sum⌋ := by
            apply Int.le_floor.mpr
            push_cast
            exact add_le_add (Int.floor_le h) (Int.floor_le t.sum)

theorem sum_sub_length_le_sum_floor (l : List ℚ) :
    l.sum - l.length ≤ ((l.map (fun q => ⌊q⌋)).sum : ℚ) := by
  induction l with
  | nil => simp
  | cons h t ih =>
      simp only [List.map_cons, List.sum_cons, List.length_cons]
      push_cast
      have hh : h - 1 ≤ (⌊h⌋ : ℚ) := by
        have := Int.sub_one_lt_floor h
        linarith
      push_cast at ih
      linarith

theorem sum_mul_div (c W : ℚ) (l : List ℚ) :
    (l.map (fun x => c * (x / W))).sum = c * (l.sum / W) := by
  induction l with
  | nil => simp
  | cons h t ih =>
      simp only [List.map_cons, List.sum_cons, ih]
      ring

theorem map_initialShare_amounts (pool : ℤ) (W : ℚ) (hps : List HashPowerInfo) :
    (hps.map (initialShare pool W)).map (fun r => r.amount)
      = hps.map (fun hp => pyInt ((pool : ℚ) * (hp.hash_power / W))) := by
  simp [List.map_map]
  intro a _
  rfl

theorem sum_exact_shares (pool : ℤ) (hps : List HashPowerInfo)
    (hW : totalHashPower hps ≠ 0) :
    (hps.map (fun hp => (pool : ℚ) * (hp.hash_power / totalHashPower hps))).sum
      = (pool : ℚ) := by
  have hmaps : hps.map (fun hp => (pool : ℚ) * (hp.hash_power / totalHashPower hps))
      = (hps.map (fun hp => hp.hash_power)).map
          (fun x => (pool : ℚ) * (x / totalHashPower hps)) := by
    simp [List.map_map]
  rw [hmaps, sum_mul_div]
  rw [totalHashPower] at hW ⊢
  rw [div_self hW, mul_one]

theorem initial_amount_nonneg (pool : ℤ) (hps : List HashPowerInfo)
    (hpool : 0 < pool) (hW : 0 < totalHashPower hps)
    (hnn : ∀ hp ∈ hps, 0 ≤ hp.hash_power) :
    ∀ r ∈ hps.map (initialShare pool (totalHashPower hps)), 0 ≤ r.amount := by
  intro r hr
  obtain ⟨hp, hhp, rfl⟩ := List.mem_map.mp hr
  apply pyInt_nonneg
  have h1 : (0 : ℚ) ≤ hp.hash_power / totalHashPower hps :=
    div_nonneg (hnn hp hhp) hW.le
  have h2 : (0 : ℚ) ≤ (pool : ℚ) := by exact_mod_cast hpool.le
  exact mul_nonneg h2 h1

theorem sum_initial_le_pool (pool : ℤ) (hps : List HashPowerInfo)
    (hpool : 0 < pool) (hW : 0 < totalHashPower hps)
    (hnn : ∀ hp ∈ hps, 0 ≤ hp.hash_power) :
    sumAmounts (hps.map (initialShare pool (totalHashPower hps))) ≤ pool := by
  rw [sumAmounts, map_initialShare_amounts]
  have heq : hps.map (fun hp => pyInt ((pool : ℚ) * (hp.hash_power / totalHashPower hps)))
      = (hps.map (fun hp => (pool : ℚ) * (hp.hash_power / totalHashPower hps))).map
          (fun q => ⌊q⌋) := by
    rw [List.map_map]
    apply List.map_congr_left
    intro hp hhp
    have h1 : (0 : ℚ) ≤ hp.hash_power / totalHashPower hps :=
      div_nonneg (hnn hp hhp) hW.le
    have h2 : (0 : ℚ) ≤ (pool : ℚ) := by exact_mod_cast hpool.le
    exact pyInt_eq_floor (mul_nonneg h2 h1)
  rw [heq]
  calc ((hps.map (fun hp => (pool : ℚ) * (hp.hash_power / totalHashPower hps))).map
          (fun q => ⌊q⌋)).sum
      ≤ ⌊(hps.map (fun hp => (pool : ℚ) * (hp.hash_power / totalHashPower hps))).sum⌋ :=
        sum_floor_le_floor_sum _
    _ = pool := by
        rw [sum_exact_shares pool hps hW.ne.symm]
        exact Int.floor_intCast pool

theorem insertDesc_perm (r : RecipientShare) (l : List RecipientShare) :
    List.Perm (insertDesc r l) (r :: l) := by
  induction l with
  | nil => exact List.Perm.refl _
  | cons x xs ih =>
      rw [insertDesc]
      by_cases h : x.hash_power ≤ r.hash_power
      · rw [if_pos h]
      · rw [if_neg h]
        exact List.Perm.trans (ih.cons x) (List.Perm.swap r x xs)

theorem sortByHashPowerDesc_perm (l : List RecipientShare) :
    List.Perm (sortByHashPowerDesc l) l := by
  induction l with
  | nil => exact List.Perm.refl _
  | cons a as ih =>
      exact List.Perm.trans (insertDesc_perm a (sortByHashPowerDesc as)) (ih.cons a)

theorem sumAmounts_perm {l₁ l₂ : List RecipientShare} (h : List.Perm l₁ l₂) :
    sumAmounts l₁ = sumAmounts l₂ := by
  rw [sumAmounts, sumAmounts]
  exact (h.map (fun r => r.amount)).sum_eq

theorem bumpAmount_length (l : List RecipientShare) (i : ℕ) :
    (bumpAmount l i).length = l.length := by
  induction l generalizing i with
  | nil => rfl
  | cons r rs ih =>
      cases i with
      | zero => rfl
      | succ n => simp [bumpAmount, ih]

theorem sumAmounts_bumpAmount (l : List RecipientShare) (i : ℕ) (h : i < l.length) :
    sumAmounts (bumpAmount l i) = sumAmounts l + 1 := by
  induction l generalizing i with
  | nil => simp at h
  | cons r rs ih =>
      cases i with
      | zero =>
          rw [bumpAmount, sumAmounts_cons, sumAmounts_cons]
          ring
      | succ n =>
          have hn : n < rs.length := by simpa using h
          rw [bumpAmount, sumAmounts_cons, sumAmounts_cons, ih n hn]
          ring

theorem bumpAmount_nonneg (l : List RecipientShare) (i : ℕ)
    (h : ∀ r ∈ l, 0 ≤ r.amount) : ∀ r ∈ bumpAmount l i, 0 ≤ r.amount := by
  induction l generalizing i with
  | nil => simp [bumpAmount]
  | cons x xs ih =>
      cases i with
      | zero =>
          intro r hr
          rcases List.mem_cons.mp hr with h1 | h2
          · subst h1
            have := h x (List.mem_cons_self x xs)
            simp only []
            omega
          · exact h r (List.mem_cons_of_mem x h2)
      | succ n =>
          intro r hr
          rcases List.mem_cons.mp hr with h1 | h2
          · subst h1
            exact h r (List.mem_cons_self r xs)
          · exact ih n (fun r hr => h r (List.mem_cons_of_mem x hr)) r h2

theorem distributeRemainder_succ (l : List RecipientShare) (n : ℕ) :
    distributeRemainder l (n + 1)
      = bumpAmount (distributeRemainder l n) (n % (distributeRemainder l n).length) := by
  unfold distributeRemainder
  rw [List.range_succ, List.foldl_append]
  rfl

theorem distributeRemainder_zero (l : List RecipientShare) :
    distributeRemainder l 0 = l := rfl

theorem distributeRemainder_length (l : List RecipientShare) (rem : ℕ) :
    (distributeRemainder l rem).length = l.length := by
  induction rem with
  | zero => rfl
  | succ n ih => rw [distributeRemainder_succ, bumpAmount_length, ih]

theorem sumAmounts_distributeRemainder (l : List RecipientShare) (hl : l ≠ [])
    (rem : ℕ) : sumAmounts (distributeRemainder l rem) = sumAmounts l + rem := by
  have hlen : 0 < l.length := List.length_pos.mpr hl
  induction rem with
  | zero => simp [distributeRemainder_zero]
  | succ n ih =>
      have hmod : n % (distributeRemainder l n).length < (distributeRemainder l n).length := by
        rw [distributeRemainder_length]
        exact Nat.mod_lt n hlen
      rw [distributeRemainder_succ, sumAmounts_bumpAmount _ _ hmod, ih]
      push_cast
      ring

theorem distributeRemainder_nonneg (l : List RecipientShare) (rem : ℕ)
    (h : ∀ r ∈ l, 0 ≤ r.amount) : ∀ r ∈ distributeRemainder l rem, 0 ≤ r.amount := by
  induction rem with
  | zero => simpa [distributeRemainder_zero] using h
  | succ n ih =>
      rw [distributeRemainder_succ]
      exact bumpAmount_nonneg _ _ ih

theorem sumAmounts_filter_pos (l : List RecipientShare)
    (h : ∀ r ∈ l, 0 ≤ r.amount) :
    sumAmounts (l.filter (fun r => 0 < r.amount)) = sumAmounts l := by
  induction l with
  | nil => rfl
  | cons r rs ih =>
      have hr := h r (List.mem_cons_self r rs)
      have hrs := fun x hx => h x (List.mem_cons_of_mem r hx)
      by_cases hpos : 0 < r.amount
      · rw [List.filter_cons_of_pos (by simpa using hpos), sumAmounts_cons,
            sumAmounts_cons, ih hrs]
      · have hzero : r.amount = 0 := by omega
        rw [List.filter_cons_of_neg (by simpa using hpos), sumAmounts_cons, ih hrs, hzero]
        ring

theorem exists_pos_amount (l : List RecipientShare) (h : 0 < sumAmounts l) :
    ∃ r ∈ l, 0 < r.amount := by
  induction l with
  | nil => simp [sumAmounts_nil] at h
  | cons r rs ih =>
      rw [sumAmounts_cons] at h
      by_cases hr : 0 < r.amount
      · exact ⟨r, List.mem_cons_self r rs, hr⟩
      · have : 0 < sumAmounts rs := by omega
        obtain ⟨x, hx, hxpos⟩ := ih this
        exact ⟨x, List.mem_cons_of_mem r hx, hxpos⟩


theorem planRecipients_sum (pool_amount : ℤ) (hash_powers : List HashPowerInfo)
    (hpool : 0 < pool_amount) (hW : 0 < totalHashPower hash_powers)
    (hne : hash_powers ≠ [])
    (hnn : ∀ hp ∈ hash_powers, 0 ≤ hp.hash_power) :
    sumAmounts (planRecipients pool_amount hash_powers) = pool_amount := by
  rw [planRecipients]
  set W := totalHashPower hash_powers with hWdef
  set recips := hash_powers.map (initialShare pool_amount W) with hrecips
  have hnonneg : ∀ r ∈ recips, 0 ≤ r.amount :=
    initial_amount_nonneg pool_amount hash_powers hpool hW hnn
  have hle : sumAmounts recips ≤ pool_amount :=
    sum_initial_le_pool pool_amount hash_powers hpool hW hnn
  have hrne : recips ≠ [] := by
    rw [hrecips]
    simpa [List.map_eq_nil_iff] using hne
  by_cases hc : 0 < pool_amount - sumAmounts recips ∧ recips ≠ []
  · rw [if_pos hc]
    have hperm := sortByHashPowerDesc_perm recips
    have hsortne : sortByHashPowerDesc recips ≠ [] := by
      intro hnil
      have hlen := hperm.length_eq
      rw [hnil] at hlen
      exact hrne (List.length_eq_zero.mp hlen.symm)
    have hsnn : ∀ r ∈ sortByHashPowerDesc recips, 0 ≤ r.amount := fun r hr =>
      hnonneg r (hperm.mem_iff.mp hr)
    rw [sumAmounts_filter_pos _
      (distributeRemainder_nonneg _ _ hsnn)]
    rw [sumAmounts_distributeRemainder _ hsortne]
    rw [sumAmounts_perm hperm]
    omega
  · rw [if_neg hc]
    rw [sumAmounts_filter_pos _ hnonneg]
    rcases not_and_or.mp hc with hr | hr
    · omega
    · exact absurd hrne hr


theorem planRecipients_ne_nil (pool_amount : ℤ) (hash_powers : List HashPowerInfo)
    (hpool : 0 < pool_amount) (hne : hash_powers ≠ []) :
    planRecipients pool_amount hash_powers ≠ [] := by
  rw [planRecipients]
  set W := totalHashPower hash_powers with hWdef
  set recips := hash_powers.map (initialShare pool_amount W) with hrecips
  have hrne : recips ≠ [] := by
    rw [hrecips]
    simpa [List.map_eq_nil_iff] using hne
  have key : ∀ l : List RecipientShare, 0 < sumAmounts l →
      l.filter (fun r => 0 < r.amount) ≠ [] := by
    intro l hl
    obtain ⟨r, hr, hrpos⟩ := exists_pos_amount l hl
    exact List.ne_nil_of_mem (List.mem_filter.mpr ⟨hr, by simpa using hrpos⟩)
  by_cases hc : 0 < pool_amount - sumAmounts recips ∧ recips ≠ []
  · rw [if_pos hc]
    apply key
    have hperm := sortByHashPowerDesc_perm recips
    have hsortne : sortByHashPowerDesc recips ≠ [] := by
      intro hnil
      have hlen := hperm.length_eq
      rw [hnil] at hlen
      exact hrne (List.length_eq_zero.mp hlen.symm)
    rw [sumAmounts_distributeRemainder _ hsortne, sumAmounts_perm hperm]
    omega
  · rw [if_neg hc]
    apply key
    rcases not_and_or.mp hc with hr | hr
    · omega
    · exact absurd hrne hr

theorem calculate_distribution_some (pool_amount : ℤ) (pool_value_usd : ℚ)
    (trigger_type : String) (hash_powers : List HashPowerInfo)
    (h1 : 0 < pool_amount) (h2 : hash_powers ≠ [])
    (h3 : 0 < totalHashPower hash_powers) :
    calculate_distribution pool_amount pool_value_usd trigger_type hash_powers
      = some { pool_amount := pool_amount
               pool_value_usd := pool_value_usd
               total_hashpower := totalHashPower hash_powers
               recipient_count := (planRecipients pool_amount hash_powers).length
               trigger_type := trigger_type
               recipients := planRecipients pool_amount hash_powers } := by
  rw [calculate_distribution, if_neg (by omega), if_neg (by simpa using h2),
      if_neg (not_le.mpr h3)]

/-- Claim C1: for every `pool_amount > 0` and every non-empty hash-power
vector with non-negative entries and positive total, `calculate_distribution`
returns a plan whose recipient amounts sum exactly to `pool_amount` —
conservation survives both the remainder distribution and the dust filter. -/
theorem C1_distribution_conservation (pool_amount : ℤ) (pool_value_usd : ℚ)
    (trigger_type : String) (hash_powers : List HashPowerInfo)
    (hpool : 0 < pool_amount) (hne : hash_powers ≠ [])
    (hW : 0 < totalHashPower hash_powers)
    (hnn : ∀ hp ∈ hash_powers, 0 ≤ hp.hash_power) :
    ∃ plan : DistributionPlan,
      calculate_distribution pool_amount pool_value_usd trigger_type hash_powers
          = some plan
        ∧ sumAmounts plan.recipients = pool_amount := by
  refine ⟨_, calculate_distribution_some pool_amount pool_value_usd trigger_type
    hash_powers hpool hne hW, ?_⟩
  exact planRecipients_sum pool_amount hash_powers hpool hW hne hnn

/-- Three equal hash-power holders, used as the concrete witness input. -/
def demoHps : List HashPowerInfo :=
  [{ wallet := "alice", twab := 1, multiplier := 1, hash_power := 1 },
   { wallet := "bob", twab := 1, multiplier := 1, hash_power := 1 },
   { wallet := "carol", twab := 1, multiplier := 1, hash_power := 1 }]

/-- Witness for C1: pool 10 over three equal holders; the returned plan
conserves the pool exactly. -/
theorem C1_distribution_conservation_witness :
    ∃ plan : DistributionPlan,
      calculate_distribution 10 0 "manual" demoHps = some plan
        ∧ sumAmounts plan.recipients = 10 :=
  C1_distribution_conservation 10 0 "manual" demoHps (by norm_num)
    (by simp [demoHps])
    (by norm_num [totalHashPower, demoHps])
    (by
      intro hp hhp
      simp only [demoHps, List.mem_cons, List.not_mem_nil, or_false] at hhp
      rcases hhp with rfl | rfl | rfl <;> norm_num)

/-- Claim C2: `calculate_distribution` returns `None` whenever the pool is
empty (`pool_amount ≤ 0`) or the total hash power is non-positive (which
covers the empty hash-power list); and a returned plan is never empty:
its recipient list is non-empty and `recipient_count` matches it. -/
theorem C2_planner_guards :
    (∀ (pool_amount : ℤ) (pv : ℚ) (tt : String) (hps : List HashPowerInfo),
        pool_amount ≤ 0 →
        calculate_distribution pool_amount pv tt hps = none)
    ∧ (∀ (pool_amount : ℤ) (pv : ℚ) (tt : String) (hps : List HashPowerInfo),
        totalHashPower hps ≤ 0 →
        calculate_distribution pool_amount pv tt hps = none)
    ∧ (∀ (pool_amount : ℤ) (pv : ℚ) (tt : String) (hps : List HashPowerInfo)
        (plan : DistributionPlan),
        calculate_distribution pool_amount pv tt hps = some plan →
        plan.recipients ≠ [] ∧ plan.recipient_count = plan.recipients.length) := by
  refine ⟨?_, ?_, ?_⟩
  · intro pool_amount pv tt hps h
    rw [calculate_distribution, if_pos h]
  · intro pool_amount pv tt hps h
    rw [calculate_distribution]
    by_cases h1 : pool_amount ≤ 0
    · rw [if_pos h1]
    · rw [if_neg h1]
      by_cases h2 : hps.isEmpty
      · rw [if_pos h2]
      · rw [if_neg h2, if_pos h]
  · intro pool_amount pv tt hps plan h
    rw [calculate_distribution] at h
    split_ifs at h with h1 h2 h3
    obtain rfl := Option.some.inj h
    constructor
    · exact planRecipients_ne_nil pool_amount hps (by omega)
        (by simpa using h2)
    · rfl

/-- Witness for C2: the guards fire at concrete inputs (`pool = 0`; an
all-zero hash-power list), and the plan returned for the demo input is
non-empty with a matching count. -/
theorem C2_planner_guards_witness :
    calculate_distribution 0 0 "manual" demoHps = none
    ∧ calculate_distribution 10 0 "manual"
        [{ wallet := "alice", twab := 0, multiplier := 1, hash_power := 0 }] = none
    ∧ ((calculate_distribution 10 0 "manual" demoHps).elim True
        (fun plan => plan.recipients ≠ [] ∧ plan.recipient_count = plan.recipients.length)) := by
  refine ⟨C2_planner_guards.1 0 0 "manual" demoHps le_rfl,
          C2_planner_guards.2.1 10 0 "manual" _ (by norm_num [totalHashPower]),
          ?_⟩
  rcases hsome : calculate_distribution 10 0 "manual" demoHps with _ | plan
  · simp [hsome]
  · simpa [hsome] using C2_planner_guards.2.2 10 0 "manual" demoHps plan hsome

/-- Add one token to each of the first `n` recipients (the effect the
remainder loop has when the remainder is below the recipient count). -/
def bumpFirst : List RecipientShare → ℕ → List RecipientShare
  | l, 0 => l
  | [], _ + 1 => []
  | r :: rs, n + 1 => { r with amount := r.amount + 1 } :: bumpFirst rs n

theorem bumpFirst_zero (l : List RecipientShare) : bumpFirst l 0 = l := by
  cases l <;> rfl

theorem bumpFirst_length (l : List RecipientShare) (n : ℕ) :
    (bumpFirst l n).length = l.length := by
  induction l generalizing n with
  | nil => cases n <;> rfl
  | cons r rs ih =>
      cases n with
      | zero => rfl
      | succ m => simp [bumpFirst, ih]

theorem bumpAmount_bumpFirst (l : List RecipientShare) (n : ℕ) (h : n < l.length) :
    bumpAmount (bumpFirst l n) n = bumpFirst l (n + 1) := by
  induction n generalizing l with
  | zero =>
      cases l with
      | nil => simp at h
      | cons r rs => rw [bumpFirst_zero, bumpFirst, bumpAmount, bumpFirst_zero]
  | succ n ih =>
      cases l with
      | nil => simp at h
      | cons r rs =>
          have hn : n < rs.length := by simpa using h
          rw [bumpFirst, bumpAmount, ih rs hn, bumpFirst]

theorem distributeRemainder_eq_bumpFirst (l : List RecipientShare) (rem : ℕ)
    (h : rem ≤ l.length) : distributeRemainder l rem = bumpFirst l rem := by
  induction rem with
  | zero => rw [distributeRemainder_zero, bumpFirst_zero]
  | succ n ih =>
      have hn : n ≤ l.length := by omega
      rw [distributeRemainder_succ, ih hn, bumpFirst_length,
          Nat.mod_eq_of_lt (by omega)]
      exact bumpAmount_bumpFirst l n (by omega)

theorem insertDesc_mem {r x : RecipientShare} {l : List RecipientShare}
    (h : x ∈ insertDesc r l) : x = r ∨ x ∈ l := by
  have := (insertDesc_perm r l).subset h
  simpa using this

theorem insertDesc_pairwise (r : RecipientShare) (l : List RecipientShare)
    (h : l.Pairwise (fun a b => b.hash_power ≤ a.hash_power)) :
    (insertDesc r l).Pairwise (fun a b => b.hash_power ≤ a.hash_power) := by
  induction l with
  | nil => simp [insertDesc]
  | cons x xs ih =>
      rw [insertDesc]
      rcases List.pairwise_cons.mp h with ⟨hx, hxs⟩
      by_cases hc : x.hash_power ≤ r.hash_power
      · rw [if_pos hc]
        apply List.pairwise_cons.mpr
        refine ⟨?_, h⟩
        intro y hy
        rcases List.mem_cons.mp hy with rfl | hmem
        · exact hc
        · exact le_trans (hx y hmem) hc
      · rw [if_neg hc]
        apply List.pairwise_cons.mpr
        refine ⟨?_, ih hxs⟩
        intro y hy
        rcases insertDesc_mem hy with rfl | hmem
        · exact (lt_of_not_le hc).le
        · exact hx y hmem

theorem sortByHashPowerDesc_pairwise (l : List RecipientShare) :
    (sortByHashPowerDesc l).Pairwise (fun a b => b.hash_power ≤ a.hash_power) := by
  induction l with
  | nil => simp [sortByHashPowerDesc]
  | cons a as ih => exact insertDesc_pairwise a _ ih

theorem insertDesc_filter_same (r : RecipientShare) (l : List RecipientShare) :
    (insertDesc r l).filter (fun x => x.hash_power = r.hash_power)
      = r :: l.filter (fun x => x.hash_power = r.hash_power) := by
  induction l with
  | nil => simp [insertDesc]
  | cons x xs ih =>
      rw [insertDesc]
      by_cases hc : x.hash_power ≤ r.hash_power
      · rw [if_pos hc]
        simp
      · rw [if_neg hc]
        have hne : ¬(x.hash_power = r.hash_power) := by
          intro heq
          exact hc heq.le
        rw [List.filter_cons_of_neg (by simpa using hne), ih,
            List.filter_cons_of_neg (by simpa using hne)]

theorem insertDesc_filter_other (r : RecipientShare) (l : List RecipientShare)
    (v : ℚ) (hv : v ≠ r.hash_power) :
    (insertDesc r l).filter (fun x => x.hash_power = v)
      = l.filter (fun x => x.hash_power = v) := by
  induction l with
  | nil =>
      simp only [insertDesc]
      rw [List.filter_cons_of_neg (by simpa using fun h => hv h.symm)]
  | cons x xs ih =>
      rw [insertDesc]
      by_cases hc : x.hash_power ≤ r.hash_power
      · rw [if_pos hc]
        rw [List.filter_cons_of_neg (by simp; intro h; exact hv h.symm)]
      · rw [if_neg hc]
        by_cases hx : x.hash_power = v
        · rw [List.filter_cons_of_pos (by simpa using hx), ih,
              List.filter_cons_of_pos (by simpa using hx)]
        · rw [List.filter_cons_of_neg (by simpa using hx), ih,
              List.filter_cons_of_neg (by simpa using hx)]

theorem sortByHashPowerDesc_stable (l : List RecipientShare) (v : ℚ) :
    (sortByHashPowerDesc l).filter (fun x => x.hash_power = v)
      = l.filter (fun x => x.hash_power = v) := by
  induction l with
  | nil => rfl
  | cons a as ih =>
      rw [sortByHashPowerDesc]
      by_cases ha : a.hash_power = v
      · subst ha
        rw [insertDesc_filter_same, ih,
            List.filter_cons_of_pos (by simp)]
      · rw [insertDesc_filter_other a _ v (fun h => ha h.symm), ih,
            List.filter_cons_of_neg (by simpa using ha)]

theorem sum_floor_gt (l : List ℚ) (hl : l ≠ []) :
    l.sum - l.length < ((l.map (fun q => ⌊q⌋)).sum : ℚ) := by
  cases l with
  | nil => exact absurd rfl hl
  | cons h t =>
      simp only [List.map_cons, List.sum_cons, List.length_cons]
      have hh : h - 1 < (⌊h⌋ : ℚ) := Int.sub_one_lt_floor h
      have ht := sum_sub_length_le_sum_floor t
      push_cast
      push_cast at ht
      linarith

theorem map_pyInt_eq_map_floor (pool_amount : ℤ) (hps : List HashPowerInfo)
    (hpool : 0 < pool_amount) (hW : 0 < totalHashPower hps)
    (hnn : ∀ hp ∈ hps, 0 ≤ hp.hash_power) :
    hps.map (fun hp => pyInt ((pool_amount : ℚ) * (hp.hash_power / totalHashPower hps)))
      = (hps.map (fun hp =>
          (pool_amount : ℚ) * (hp.hash_power / totalHashPower hps))).map
          (fun q => ⌊q⌋) := by
  rw [List.map_map]
  apply List.map_congr_left
  intro hp hhp
  have h1 : (0 : ℚ) ≤ hp.hash_power / totalHashPower hps :=
    div_nonneg (hnn hp hhp) hW.le
  have h2 : (0 : ℚ) ≤ (pool_amount : ℚ) := by exact_mod_cast hpool.le
  exact pyInt_eq_floor (mul_nonneg h2 h1)

theorem remainder_lt_length (pool_amount : ℤ) (hps : List HashPowerInfo)
    (hpool : 0 < pool_amount) (hW : 0 < totalHashPower hps) (hne : hps ≠ [])
    (hnn : ∀ hp ∈ hps, 0 ≤ hp.hash_power) :
    pool_amount
        - sumAmounts (hps.map (initialShare pool_amount (totalHashPower hps)))
      < hps.length := by
  rw [sumAmounts, map_initialShare_amounts,
      map_pyInt_eq_map_floor pool_amount hps hpool hW hnn]
  set xs := hps.map (fun hp =>
    (pool_amount : ℚ) * (hp.hash_power / totalHashPower hps)) with hxs
  have hxs_ne : xs ≠ [] := by
    rw [hxs]
    simpa [List.map_eq_nil_iff] using hne
  have hgt := sum_floor_gt xs hxs_ne
  rw [hxs] at hgt
  rw [sum_exact_shares pool_amount hps hW.ne.symm] at hgt
  rw [← hxs] at hgt
  have hlen : xs.length = hps.length := by
    rw [hxs, List.length_map]
  rw [hlen] at hgt
  have hz : pool_amount - (hps.length : ℤ) < (xs.map (fun q => ⌊q⌋)).sum := by
    exact_mod_cast hgt
  omega


theorem demo_planRecipients : planRecipients 10 demoHps
    = [{ wallet := "alice", twab := 1, multiplier := 1, hash_power := 1,
         share_percentage := 100 / 3, amount := 4 },
       { wallet := "bob", twab := 1, multiplier := 1, hash_power := 1,
         share_percentage := 100 / 3, amount := 3 },
       { wallet := "carol", twab := 1, multiplier := 1, hash_power := 1,
         share_percentage := 100 / 3, amount := 3 }] := by
  have hpy : pyInt ((10 : ℚ) / 3) = 3 := by
    rw [pyInt_eq_floor (by norm_num)]
    norm_num [Int.floor_eq_iff]
  norm_num [planRecipients, demoHps, totalHashPower, initialShare, sumAmounts,
        sortByHashPowerDesc, insertDesc, distributeRemainder, bumpAmount,
        List.range, List.range.loop, hpy]
  simp

/-- Claim C3: remainder distribution is deterministic.  The recipients are
sorted by hash power descending by a stable sort (sorted, a permutation,
and relative order of equal hash powers preserved); the remainder is
strictly below the recipient count, so handing it out one unit at a time
cycling through the sorted order (`index = i mod len`) gives exactly one
extra unit to each of the first `remainder` sorted recipients; and for
pool 10 with three equal weights the amounts are 4/3/3 in stable order —
the single extra unit goes to the first account. -/
theorem C3_remainder_determinism :
    (∀ (l : List RecipientShare) (rem : ℕ), rem ≤ l.length →
        distributeRemainder l rem = bumpFirst l rem)
    ∧ (∀ l : List RecipientShare,
        (sortByHashPowerDesc l).Pairwise (fun a b => b.hash_power ≤ a.hash_power)
          ∧ List.Perm (sortByHashPowerDesc l) l
          ∧ ∀ v : ℚ, (sortByHashPowerDesc l).filter (fun r => r.hash_power = v)
              = l.filter (fun r => r.hash_power = v))
    ∧ (∀ (pool_amount : ℤ) (hps : List HashPowerInfo),
        0 < pool_amount → hps ≠ [] → 0 < totalHashPower hps →
        (∀ hp ∈ hps, 0 ≤ hp.hash_power) →
        pool_amount
            - sumAmounts (hps.map (initialShare pool_amount (totalHashPower hps)))
          < hps.length)
    ∧ calculate_distribution 10 0 "manual" demoHps
        = some { pool_amount := 10, pool_value_usd := 0, total_hashpower := 3,
                 recipient_count := 3, trigger_type := "manual",
                 recipients := [
                   { wallet := "alice", twab := 1, multiplier := 1, hash_power := 1,
                     share_percentage := 100 / 3, amount := 4 },
                   { wallet := "bob", twab := 1, multiplier := 1, hash_power := 1,
                     share_percentage := 100 / 3, amount := 3 },
                   { wallet := "carol", twab := 1, multiplier := 1, hash_power := 1,
                     share_percentage := 100 / 3, amount := 3 }] } := by
  refine ⟨distributeRemainder_eq_bumpFirst, ?_,
    (fun pool hps h1 h2 h3 h4 => remainder_lt_length pool hps h1 h3 h2 h4), ?_⟩
  · intro l
    exact ⟨sortByHashPowerDesc_pairwise l, sortByHashPowerDesc_perm l,
           sortByHashPowerDesc_stable l⟩
  · have htot : totalHashPower demoHps = 3 := by
      norm_num [totalHashPower, demoHps]
    rw [calculate_distribution_some 10 0 "manual" demoHps (by norm_num)
        (by simp [demoHps]) (by rw [htot]; norm_num)]
    rw [demo_planRecipients, htot]
    rfl

/-- Witness for C3: concrete instantiations of the hypothesis-bearing
conjuncts — the remainder loop equals the bump-first-`rem` form on a
three-element list with remainder 1, and the remainder for the demo input
is strictly below the recipient count. -/
theorem C3_remainder_determinism_witness :
    distributeRemainder
        [{ wallet := "alice", twab := 1, multiplier := 1, hash_power := 1,
           share_percentage := 100 / 3, amount := 3 },
         { wallet := "bob", twab := 1, multiplier := 1, hash_power := 1,
           share_percentage := 100 / 3, amount := 3 },
         { wallet := "carol", twab := 1, multiplier := 1, hash_power := 1,
           share_percentage := 100 / 3, amount := 3 }] 1
      = bumpFirst
        [{ wallet := "alice", twab := 1, multiplier := 1, hash_power := 1,
           share_percentage := 100 / 3, amount := 3 },
         { wallet := "bob", twab := 1, multiplier := 1, hash_power := 1,
           share_percentage := 100 / 3, amount := 3 },
         { wallet := "carol", twab := 1, multiplier := 1, hash_power := 1,
           share_percentage := 100 / 3, amount := 3 }] 1
    ∧ (10 : ℤ) - sumAmounts (demoHps.map (initialShare 10 (totalHashPower demoHps)))
        < demoHps.length := by
  constructor
  · exact C3_remainder_determinism.1 _ 1 (by norm_num)
  · exact C3_remainder_determinism.2.2.1 10 demoHps (by norm_num)
      (by simp [demoHps])
      (by norm_num [totalHashPower, demoHps])
      (by
        intro hp hhp
        simp only [demoHps, List.mem_cons, List.not_mem_nil, or_false] at hhp
        rcases hhp with rfl | rfl | rfl <;> norm_num)

/-! ## Distribution lock (`distribution.py`, `acquire_distribution_lock`)

The lock row is the singleton `DistributionLock` table row (`id = 1`).
`SELECT ... FOR UPDATE NOWAIT` is modelled at row-lock granularity: the
database state records which transaction (if any) currently holds the
exclusive row lock; an acquire attempt by a transaction while the row lock
is held raises `OperationalError` (lock_not_available), which the code
catches and converts to `False`.  A transaction's row lock is released
when its unit of work commits or rolls back; two concurrent attempts both
run before either commit, so the second sees the first's row lock. -/

/-- State of the `distribution_lock` table and its row lock. -/
structure LockDbState where
  rowExists : Bool
  locked_at : Option ℤ
  locked_by : Option String
  rowLockHolder : Option String
deriving DecidableEq, Repr

/-- `acquire_distribution_lock` from `distribution.py`, lines 744-804:
upsert the singleton row (`ON CONFLICT DO NOTHING`), then
`SELECT ... FOR UPDATE NOWAIT`; on success update `locked_at`/`locked_by`
and return `True`; on `lock_not_available` return `False`. -/
def acquire_distribution_lock (s : LockDbState) (worker_id : String) (now : ℤ) :
    Bool × LockDbState :=
  let s1 := { s with rowExists := true }
  match s1.rowLockHolder with
  | some _ => (false, s1)
  | none =>
      (true, { s1 with rowLockHolder := some worker_id
                       locked_at := some now
                       locked_by := some worker_id })

/-- Claim C5: the distribution lock acquire is non-blocking mutual
exclusion.  From an unlocked state, of two acquire attempts serialized by
the database row lock exactly one returns `True`; the contended attempt
returns `False` immediately (no waiting state, no queueing — the database
state apart from the idempotent upsert is untouched), and its metadata
still names the winner. -/
theorem C5_lock_mutual_exclusion :
    (∀ (s : LockDbState) (w1 w2 : String) (t1 t2 : ℤ),
        s.rowLockHolder = none →
        (acquire_distribution_lock s w1 t1).1 = true
          ∧ (acquire_distribution_lock
              (acquire_distribution_lock s w1 t1).2 w2 t2).1 = false
          ∧ ((acquire_distribution_lock
              (acquire_distribution_lock s w1 t1).2 w2 t2).2).locked_by = some w1)
    ∧ (∀ (s : LockDbState) (w h : String) (t : ℤ),
        s.rowLockHolder = some h →
        acquire_distribution_lock s w t = (false, { s with rowExists := true })) := by
  constructor
  · intro s w1 w2 t1 t2 hnone
    simp [acquire_distribution_lock, hnone]
  · intro s w h t hsome
    simp [acquire_distribution_lock, hsome]

/-- Witness for C5 at a concrete unlocked state and a concrete locked
state. -/
theorem C5_lock_mutual_exclusion_witness :
    ((acquire_distribution_lock
        { rowExists := true, locked_at := none, locked_by := none,
          rowLockHolder := none } "worker-a" 0).1 = true
      ∧ (acquire_distribution_lock
          (acquire_distribution_lock
            { rowExists := true, locked_at := none, locked_by := none,
              rowLockHolder := none } "worker-a" 0).2 "worker-b" 1).1 = false
      ∧ ((acquire_distribution_lock
          (acquire_distribution_lock
            { rowExists := true, locked_at := none, locked_by := none,
              rowLockHolder := none } "worker-a" 0).2 "worker-b" 1).2).locked_by
          = some "worker-a")
    ∧ acquire_distribution_lock
        { rowExists := true, locked_at := some 0, locked_by := some "worker-a",
          rowLockHolder := some "worker-a" } "worker-b" 1
        = (false, { rowExists := true, locked_at := some 0,
                    locked_by := some "worker-a",
                    rowLockHolder := some "worker-a" }) :=
  ⟨C5_lock_mutual_exclusion.1 _ "worker-a" "worker-b" 0 1 rfl,
   C5_lock_mutual_exclusion.2 _ "worker-b" "worker-a" 1 rfl⟩

/-! ## Reconciliation retry (`distribution.py`, `retry_failed_transfer`)

`TransactionResult` is from `solana_tx.py`.  A retry environment carries
the configuration flag (`airdrop_pool_private_key` and `gold_token_mint`
both set) and the outcome of the single `send_spl_token_transfer` call
(`Except.error` = exception raised).  The returned triple is
(return value, recipient row after the call, number of transfers issued).

Note on the success path: `distribution.py` line 28 imports only
`send_spl_token_transfer` and `batch_confirm_transactions` from
`solana_tx`, yet line 705 calls `confirm_transaction`, a name that is
never imported or defined in the module.  Whenever `result.success` is
truthy that call raises `NameError`, which the `except Exception` at line
723 catches: the function returns `False` and the row update at lines
710-712 (and the `return True` at line 716) are unreachable. -/

/-- `TransactionResult` from `solana_tx.py`. -/
structure TransactionResult where
  success : Bool
  signature : Option String
  error : Option String
deriving DecidableEq, Repr

/-- A `DistributionRecipient` table row (fields the claims read). -/
structure DistributionRecipientRow where
  id : ℕ
  distribution_id : ℕ
  wallet : String
  amount_received : ℤ
  tx_signature : Option String
deriving DecidableEq, Repr

/-- External-call outcomes for one `retry_failed_transfer` invocation. -/
structure RetryEnv where
  configured : Bool
  transfer : Except String TransactionResult

/-- `DistributionService.retry_failed_transfer` from `distribution.py`,
lines 673-725: `if recipient.tx_signature:` short-circuits to `True`
(Python truthiness: `None` and `""` are falsy); missing configuration
returns `False`; otherwise one transfer is issued.  On
`result.success` the code reaches `confirm_transaction` at line 705 — an
unimported name — so it raises `NameError`, caught at line 723, and
returns `False` with the row unchanged; a failed transfer or an exception
from the send likewise returns `False` with the row unchanged.  No path
after the first guard ever returns `True` or mutates the row. -/
def retry_failed_transfer (recipient : DistributionRecipientRow)
    (planned_amount : ℤ) (env : RetryEnv) :
    Bool × DistributionRecipientRow × ℕ :=
  if pyTruthyStr recipient.tx_signature then (true, recipient, 0)
  else if ¬env.configured then (false, recipient, 0)
  else
    match env.transfer with
    | .error _ => (false, recipient, 1)
    | .ok result =>
        if result.success then
          -- line 705: `await confirm_transaction(...)` raises NameError
          -- (name never imported); caught at line 723 → return False,
          -- lines 710-716 dead
          (false, recipient, 1)
        else (false, recipient, 1)

/-- Claim C6 evaluated on the code (code bug): the no-op half holds for a
real (non-empty) stored signature, but the re-issue half is defeated by
the unimported `confirm_transaction`: for every null-signature row with
configured credentials whose single re-issued transfer SUCCEEDS, the call
still returns `False` and leaves the row unchanged — `tx_signature` stays
null and `amount_received` stays 0, while the tokens may already have
moved on chain.  The third conjunct evaluates the failing input
concretely. -/
theorem C6_retry_success_path_dead :
    (∀ (row : DistributionRecipientRow) (amt : ℤ) (env : RetryEnv) (s : String),
        row.tx_signature = some s → s ≠ "" →
        retry_failed_transfer row amt env = (true, row, 0))
    ∧ (∀ (row : DistributionRecipientRow) (amt : ℤ) (env : RetryEnv)
        (res : TransactionResult),
        row.tx_signature = none → env.configured = true →
        env.transfer = .ok res → res.success = true →
        retry_failed_transfer row amt env = (false, row, 1))
    ∧ retry_failed_transfer
        { id := 2, distribution_id := 1, wallet := "v", amount_received := 0,
          tx_signature := none } 9
        { configured := true,
          transfer := .ok { success := true, signature := some "sig-new",
                            error := none } }
      = (false,
         { id := 2, distribution_id := 1, wallet := "v", amount_received := 0,
           tx_signature := none }, 1) := by
  refine ⟨?_, ?_, rfl⟩
  · intro row amt env s hs hne
    rw [retry_failed_transfer]
    rw [if_pos (by simp [pyTruthyStr, hs, hne])]
  · intro row amt env res h0 hconf htr hsucc
    rw [retry_failed_transfer]
    rw [if_neg (by simp [pyTruthyStr, h0]), if_neg (by simp [hconf]), htr]
    dsimp only
    rw [if_pos hsucc]

/-- Witness for C6 at concrete rows: a row with a real signature is left
untouched with `True`; a null-signature row whose re-issued transfer
succeeds still comes back `False` and unchanged. -/
theorem C6_retry_success_path_dead_witness :
    retry_failed_transfer
        { id := 1, distribution_id := 1, wallet := "w", amount_received := 7,
          tx_signature := some "sig-old" } 7
        { configured := true,
          transfer := .ok { success := true, signature := some "sig-new",
                            error := none } }
      = (true,
         { id := 1, distribution_id := 1, wallet := "w", amount_received := 7,
           tx_signature := some "sig-old" }, 0)
    ∧ retry_failed_transfer
        { id := 2, distribution_id := 1, wallet := "v", amount_received := 0,
          tx_signature := none } 9
        { configured := true,
          transfer := .ok { success := true, signature := some "sig-new",
                            error := none } }
      = (false,
         { id := 2, distribution_id := 1, wallet := "v", amount_received := 0,
           tx_signature := none }, 1) :=
  ⟨C6_retry_success_path_dead.1 _ 7 _ "sig-old" rfl (by decide),
   C6_retry_success_path_dead.2.1 _ 9 _
     { success := true, signature := some "sig-new", error := none }
     rfl rfl rfl rfl⟩

/-! ## Revenue ingestion (`buyback.py`, `record_creator_reward`)

`CreatorReward` is the RevenueRecord table; the database is a list of rows
plus the next primary key.  `record_creator_reward` checks for an existing
row with the same `tx_signature` only when the signature is truthy, and
otherwise inserts a new row. -/

/-- A `CreatorReward` table row. -/
structure CreatorReward where
  id : ℕ
  amount_sol : ℚ
  source : String
  tx_signature : Option String
  received_at : ℤ
  processed : Bool
deriving DecidableEq, Repr

/-- The CreatorReward table state. -/
structure BuybackDb where
  rewards : List CreatorReward
  nextId : ℕ
deriving DecidableEq, Repr

/-- `BuybackService.record_creator_reward` from `buyback.py`, lines
387-428: `if tx_signature:` (truthiness) guards the duplicate lookup;
an existing row with the same signature is returned unchanged; otherwise
a new unprocessed row is inserted and returned. -/
def record_creator_reward (db : BuybackDb) (amount_sol : ℚ) (source : String)
    (tx_signature : Option String) (now : ℤ) : Option CreatorReward × BuybackDb :=
  let existing :=
    if pyTruthyStr tx_signature then
      db.rewards.find? (fun r => r.tx_signature == tx_signature)
    else none
  match existing with
  | some r => (some r, db)
  | none =>
      let reward : CreatorReward :=
        { id := db.nextId, amount_sol := amount_sol, source := source,
          tx_signature := tx_signature, received_at := now, processed := false }
      (some reward, { rewards := db.rewards ++ [reward], nextId := db.nextId + 1 })

theorem find?_append_of_none {α : Type} {p : α → Bool} {l1 l2 : List α}
    (h : l1.find? p = none) : (l1 ++ l2).find? p = l2.find? p := by
  induction l1 with
  | nil => rfl
  | cons a as ih =>
      rw [List.find?_eq_none] at h
      have hpa : p a = false := by
        have := h a (List.mem_cons_self a as)
        simpa using this
      rw [List.cons_append]
      rw [List.find?_cons_of_neg _ (by simp [hpa])]
      apply ih
      rw [List.find?_eq_none]
      intro x hx
      exact h x (List.mem_cons_of_mem a hx)

theorem record_creator_reward_of_find_none (db : BuybackDb) (a : ℚ) (s : String)
    (sig : String) (t : ℤ) (hsig : sig ≠ "")
    (hnone : db.rewards.find? (fun r => r.tx_signature == some sig) = none) :
    record_creator_reward db a s (some sig) t
      = (some { id := db.nextId, amount_sol := a, source := s,
                tx_signature := some sig, received_at := t, processed := false },
         { rewards := db.rewards ++
            [{ id := db.nextId, amount_sol := a, source := s,
               tx_signature := some sig, received_at := t, processed := false }],
           nextId := db.nextId + 1 }) := by
  rw [record_creator_reward]
  have ht : pyTruthyStr (some sig) = true := by simp [pyTruthyStr, hsig]
  simp only [ht, if_true, hnone]

theorem record_creator_reward_of_find_some (db : BuybackDb) (a : ℚ) (s : String)
    (sig : String) (t : ℤ) (r : CreatorReward) (hsig : sig ≠ "")
    (hfound : db.rewards.find? (fun x => x.tx_signature == some sig) = some r) :
    record_creator_reward db a s (some sig) t = (some r, db) := by
  rw [record_creator_reward]
  have ht : pyTruthyStr (some sig) = true := by simp [pyTruthyStr, hsig]
  simp only [ht, if_true, hfound]

/-- Counterexample to C7 as stated: a non-null but empty `tx_signature`
(`some ""`).  Python's `if tx_signature:` is falsy on `""`, so the
duplicate check is skipped: recording the same id twice stores two rows,
and the second call returns a new record, not the first. -/
theorem C7_revenue_idempotent_counterexample :
    (some "" : Option String).isSome = true
    ∧ (((record_creator_reward
          (record_creator_reward { rewards := [], nextId := 0 } 1 "pumpfun"
            (some "") 0).2
          1 "pumpfun" (some "") 1).2).rewards.filter
        (fun r => r.tx_signature == some "")).length = 2
    ∧ (record_creator_reward
          (record_creator_reward { rewards := [], nextId := 0 } 1 "pumpfun"
            (some "") 0).2
          1 "pumpfun" (some "") 1).1
        ≠ (record_creator_reward { rewards := [], nextId := 0 } 1 "pumpfun"
            (some "") 0).1 := by
  refine ⟨rfl, rfl, ?_⟩
  intro h
  simp [record_creator_reward, pyTruthyStr] at h

/-- Claim C7 amended: for every non-null, non-empty `tx_signature`,
calling `record_creator_reward` twice with the same signature (starting
from a state with no row for it) stores exactly one RevenueRecord, and the
second call returns the record created by the first, unchanged, leaving
the table untouched. -/
theorem C7_revenue_idempotent_amended (db : BuybackDb) (a1 a2 : ℚ)
    (s1 s2 : String) (sig : String) (t1 t2 : ℤ) (hsig : sig ≠ "")
    (hfresh : db.rewards.filter (fun r => r.tx_signature == some sig) = []) :
    (record_creator_reward (record_creator_reward db a1 s1 (some sig) t1).2
        a2 s2 (some sig) t2).1
      = (record_creator_reward db a1 s1 (some sig) t1).1
    ∧ (record_creator_reward (record_creator_reward db a1 s1 (some sig) t1).2
        a2 s2 (some sig) t2).2
      = (record_creator_reward db a1 s1 (some sig) t1).2
    ∧ (((record_creator_reward db a1 s1 (some sig) t1).2).rewards.filter
        (fun r => r.tx_signature == some sig)).length = 1 := by
  have hnone : db.rewards.find? (fun r => r.tx_signature == some sig) = none := by
    rw [List.find?_eq_none]
    intro x hx
    have := List.filter_eq_nil_iff.mp hfresh x hx
    simpa using this
  have h1 := record_creator_reward_of_find_none db a1 s1 sig t1 hsig hnone
  rw [h1]
  have hfind2 : (db.rewards ++
      ([{ id := db.nextId, amount_sol := a1, source := s1,
          tx_signature := some sig, received_at := t1, processed := false }]
        : List CreatorReward)).find?
        (fun r => r.tx_signature == some sig)
      = some { id := db.nextId, amount_sol := a1, source := s1,
               tx_signature := some sig, received_at := t1, processed := false } := by
    rw [find?_append_of_none hnone]
    rw [List.find?_cons_of_pos _ (by simp)]
  have h2 := record_creator_reward_of_find_some
    ({ rewards := db.rewards ++
        [{ id := db.nextId, amount_sol := a1, source := s1,
           tx_signature := some sig, received_at := t1, processed := false }],
       nextId := db.nextId + 1 } : BuybackDb) a2 s2 sig t2 _ hsig hfind2
  rw [h2]
  refine ⟨rfl, rfl, ?_⟩
  rw [List.filter_append, hfresh]
  simp

/-- Witness for the amended C7: recording signature `"tx-1"` twice in an
empty table stores one row; the second call returns the first row and
leaves the table unchanged. -/
theorem C7_revenue_idempotent_amended_witness :
    (record_creator_reward
        (record_creator_reward { rewards := [], nextId := 0 } 2 "pumpfun"
          (some "tx-1") 0).2 3 "pumpswap" (some "tx-1") 5).1
      = (record_creator_reward { rewards := [], nextId := 0 } 2 "pumpfun"
          (some "tx-1") 0).1
    ∧ (record_creator_reward
        (record_creator_reward { rewards := [], nextId := 0 } 2 "pumpfun"
          (some "tx-1") 0).2 3 "pumpswap" (some "tx-1") 5).2
      = (record_creator_reward { rewards := [], nextId := 0 } 2 "pumpfun"
          (some "tx-1") 0).2
    ∧ (((record_creator_reward { rewards := [], nextId := 0 } 2 "pumpfun"
          (some "tx-1") 0).2).rewards.filter
        (fun r => r.tx_signature == some "tx-1")).length = 1 :=
  C7_revenue_idempotent_amended { rewards := [], nextId := 0 } 2 3 "pumpfun"
    "pumpswap" "tx-1" 0 5 (by decide) rfl

/-! ## Buyback pipeline (`buyback.py`, `execute_swap` and
`process_pending_rewards`)

`execute_swap` is driven by a `SwapEnv` carrying the outcome of each
external call: the initial Jupiter quote (its `outAmount`), whether that
quote is still fresh at the re-check (`is_fresh()`), the re-fetched quote,
the Jupiter swap-build POST (`Except.error` = exception raised, `Option`
= the `swapTransaction` field), the `sign_and_send_transaction` result and
the confirmation outcome (read but never acted on by the source).
`process_pending_rewards` additionally sees configuration flags and the
three `transfer_to_team_wallet` outcomes.  The `Buyback` table insert and
the WebSocket emit touch no state the claims read and are not modelled. -/

/-- `BuybackResult` from `buyback.py`. -/
structure BuybackResult where
  success : Bool
  tx_signature : Option String
  sol_spent : ℚ
  copper_received : ℤ
  price_per_token : Option ℚ
  error : Option String
deriving DecidableEq, Repr

/-- The failure result shape used throughout `buyback.py`. -/
def failBuyback (msg : String) : BuybackResult :=
  { success := false, tx_signature := none, sol_spent := 0, copper_received := 0,
    price_per_token := none, error := some msg }

/-- External-call outcomes for one `execute_swap` invocation. -/
structure SwapEnv where
  quote1 : Option ℤ
  quote1_fresh : Bool
  quote2 : Option ℤ
  swap_tx : Except String (Option String)
  send : TransactionResult
  confirmed : Bool

/-- `BuybackService.execute_swap` from `buyback.py`, lines 184-328:
missing key and failed initial quote short-circuit; a stale quote is
re-fetched once and a failed re-fetch aborts the attempt; a missing
`swapTransaction`, a failed send, or an exception abort; otherwise the
result is built from the (possibly re-fetched) quote's `outAmount`;
confirmation failure only logs. -/
def execute_swap (wallet_private_key : Option String) (sol_amount : ℚ)
    (env : SwapEnv) : BuybackResult :=
  if ¬pyTruthyStr wallet_private_key then
    failBuyback "Wallet private key not configured"
  else
    match env.quote1 with
    | none => failBuyback "Failed to get Jupiter quote"
    | some q1 =>
        let quoteOut : Option ℤ :=
          if ¬env.quote1_fresh then env.quote2 else some q1
        match quoteOut with
        | none => failBuyback "Failed to re-fetch Jupiter quote after expiration"
        | some q =>
            match env.swap_tx with
            | .error e => failBuyback e
            | .ok tx =>
                if ¬pyTruthyStr tx then
                  failBuyback "No swap transaction returned from Jupiter"
                else if ¬env.send.success then
                  failBuyback (pyOrStr env.send.error "Transaction failed")
                else
                  { success := true, tx_signature := env.send.signature,
                    sol_spent := sol_amount, copper_received := q,
                    price_per_token :=
                      if 0 < q then some (sol_amount / (q : ℚ)) else none,
                    error := none }

/-- `BuybackService.mark_rewards_processed`: flip `processed` on the rows
whose ids are listed. -/
def mark_rewards_processed (db : BuybackDb) (ids : List ℕ) : BuybackDb :=
  { db with rewards := db.rewards.map (fun r =>
      if r.id ∈ ids then { r with processed := true } else r) }

/-- External-call outcomes for one `process_pending_rewards` run. -/
structure PendingEnv where
  pool_configured : Bool
  pool_transfer_tx : Option String
  pool_transfer_confirm : Bool
  swap : BuybackResult
  algo_configured : Bool
  algo_bot_tx : Option String
  team_configured : Bool
  team_tx : Option String

/-- `process_pending_rewards` from `buyback.py`, lines 512-678: collect
unprocessed rewards (empty list short-circuits to `None`); pool transfer
and its confirmation gate the swap; the swap result (or the
"Pool transfer failed or not confirmed" failure) is the returned result;
the algo-bot and team transfers run regardless; and the consumed rewards
are marked processed `if buyback_success or algo_bot_tx or team_tx`. -/
def process_pending_rewards (db : BuybackDb) (env : PendingEnv) :
    Option BuybackResult × BuybackDb :=
  let rewards := db.rewards.filter (fun r => !r.processed)
  if rewards.isEmpty then (none, db)
  else
    let pool_transfer_tx :=
      if env.pool_configured then env.pool_transfer_tx else none
    let pool_transfer_confirmed :=
      pyTruthyStr pool_transfer_tx && env.pool_transfer_confirm
    let result :=
      if pool_transfer_confirmed then env.swap
      else failBuyback "Pool transfer failed or not confirmed"
    let buyback_success := result.success && pyTruthyStr result.tx_signature
    let algo_bot_tx := if env.algo_configured then env.algo_bot_tx else none
    let team_tx := if env.team_configured then env.team_tx else none
    let db' :=
      if buyback_success || pyTruthyStr algo_bot_tx || pyTruthyStr team_tx then
        mark_rewards_processed db (rewards.map (fun r => r.id))
      else db
    (some result, db')

/-- One unprocessed reward row, used in the C8 scenarios. -/
def dbC8 : BuybackDb :=
  { rewards := [{ id := 0, amount_sol := 5, source := "pumpfun",
                  tx_signature := some "t0", received_at := 0,
                  processed := false }],
    nextId := 1 }

/-- A swap environment whose quote is stale and whose re-fetch fails. -/
def swapEnvRefetchFail : SwapEnv :=
  { quote1 := some 100, quote1_fresh := false, quote2 := none,
    swap_tx := .ok none,
    send := { success := false, signature := none, error := none },
    confirmed := false }

/-- A cycle in which the pool transfer confirms, the buyback swap fails on
the quote re-fetch, the algo-bot transfer is skipped, and the team
transfer succeeds. -/
def envC8 : PendingEnv :=
  { pool_configured := true, pool_transfer_tx := some "ptx",
    pool_transfer_confirm := true,
    swap := execute_swap (some "key") 1 swapEnvRefetchFail,
    algo_configured := false, algo_bot_tx := none,
    team_configured := true, team_tx := some "ttx" }

/-- Counterexample to C8 as stated: the buyback swap of the cycle fails
(quote re-fetch failure), yet because the sibling team transfer succeeded
the consumed RevenueRecords are marked processed — they are not picked up
by the next cycle. -/
theorem C8_unprocessed_on_failure_counterexample :
    (execute_swap (some "key") 1 swapEnvRefetchFail).success = false
    ∧ (execute_swap (some "key") 1 swapEnvRefetchFail).error
        = some "Failed to re-fetch Jupiter quote after expiration"
    ∧ ((process_pending_rewards dbC8 envC8).1.map (fun r => r.success))
        = some false
    ∧ ((process_pending_rewards dbC8 envC8).2.rewards.map (fun r => r.processed))
        = [true] := by
  refine ⟨rfl, rfl, by decide, by decide⟩

/-- Claim C8 amended: a failed buyback swap leaves the consumed
RevenueRecords unprocessed only when the sibling algo-bot and team
transfers also fail or are skipped; if any of the three operations
succeeds (`if buyback_success or algo_bot_tx or team_tx`), the records
are marked processed even though the swap failed.  A stale quote whose
re-fetch fails aborts the swap attempt with a failure result. -/
theorem C8_unprocessed_on_failure_amended :
    (∀ (key : Option String) (sol : ℚ) (env : SwapEnv) (q : ℤ),
        pyTruthyStr key = true → env.quote1 = some q → env.quote1_fresh = false →
        env.quote2 = none →
        execute_swap key sol env
          = failBuyback "Failed to re-fetch Jupiter quote after expiration")
    ∧ (∀ (db : BuybackDb) (env : PendingEnv),
        env.swap.success = false →
        pyTruthyStr (if env.algo_configured then env.algo_bot_tx else none)
          = false →
        pyTruthyStr (if env.team_configured then env.team_tx else none)
          = false →
        (process_pending_rewards db env).2 = db) := by
  constructor
  · intro key sol env q hkey hq1 hfresh hq2
    rw [execute_swap]
    rw [if_neg (by simp [hkey]), hq1]
    dsimp only
    rw [if_pos (by simp [hfresh]), hq2]
  · intro db env hswap halgo hteam
    rw [process_pending_rewards]
    by_cases hemp : (db.rewards.filter (fun r => !r.processed)).isEmpty
    · rw [if_pos hemp]
    · rw [if_neg hemp]
      have hbb : (if pyTruthyStr
            (if env.pool_configured then env.pool_transfer_tx else none)
              && env.pool_transfer_confirm then env.swap
          else failBuyback "Pool transfer failed or not confirmed").success
          = false := by
        by_cases hptc : pyTruthyStr
            (if env.pool_configured then env.pool_transfer_tx else none)
              && env.pool_transfer_confirm
        · rw [if_pos hptc]
          exact hswap
        · rw [if_neg hptc]
          rfl
      simp only [hbb, halgo, hteam, Bool.false_and, Bool.false_or, Bool.or_false,
        if_false, Bool.false_eq_true]

/-- A cycle in which the buyback swap fails and both sibling transfers are
skipped. -/
def envC8AllFail : PendingEnv :=
  { pool_configured := true, pool_transfer_tx := some "ptx",
    pool_transfer_confirm := true,
    swap := execute_swap (some "key") 1 swapEnvRefetchFail,
    algo_configured := false, algo_bot_tx := none,
    team_configured := false, team_tx := none }

/-- Witness for the amended C8: the failed quote re-fetch aborts the swap,
and with the sibling transfers also failing the reward table is left
untouched (records stay unprocessed). -/
theorem C8_unprocessed_on_failure_amended_witness :
    execute_swap (some "key") 1 swapEnvRefetchFail
        = failBuyback "Failed to re-fetch Jupiter quote after expiration"
    ∧ (process_pending_rewards dbC8 envC8AllFail).2 = dbC8 :=
  ⟨C8_unprocessed_on_failure_amended.1 (some "key") 1 swapEnvRefetchFail 100
      (by decide) rfl rfl rfl,
   C8_unprocessed_on_failure_amended.2 dbC8 envC8AllFail (by decide)
      (by decide) (by decide)⟩

/-! ## Transaction submission (`solana_tx.py`, `send_spl_token_transfer`)

The RPC world is an environment giving, per attempt index: the blockhash
fetch result (`get_recent_blockhash`, `none` = fetch failed) and the
submission outcome (a JSON-RPC error response, a result field with the
signature, or a raised exception).  The ATA existence check is a single
pre-loop call.  The embedding returns the `TransactionResult` together
with the submission trace: one `(attempt, blockhash)` pair per
`sendTransaction` actually issued, in order. -/

/-- `BLOCKHASH_ERROR_PATTERNS` from `solana_tx.py`, lines 22-28. -/
def BLOCKHASH_ERROR_PATTERNS : List String :=
  ["blockhash not found", "BlockhashNotFound", "block height exceeded",
   "transaction simulation failed"]

/-- `MAX_BLOCKHASH_RETRIES = 2`. -/
def MAX_BLOCKHASH_RETRIES : ℕ := 2

/-- `MAX_TOKEN_AMOUNT = 10**18`. -/
def MAX_TOKEN_AMOUNT : ℤ := 10 ^ 18

/-- Python `str.lower()` (ASCII-level model). -/
def pyLower (s : String) : String := String.mk (s.data.map Char.toLower)

/-- Python `needle in hay` on strings: substring containment. -/
def listContainsSub (hay needle : List Char) : Bool :=
  hay.tails.any (fun t => needle.isPrefixOf t)

/-- `_is_blockhash_error` from `solana_tx.py`, lines 61-64. -/
def is_blockhash_error (error_msg : String) : Bool :=
  BLOCKHASH_ERROR_PATTERNS.any
    (fun p => listContainsSub (pyLower error_msg).data (pyLower p).data)

/-- Outcome of one `sendTransaction` RPC call. -/
inductive SubmitOutcome where
  | errorResp (msg : String)
  | ok (signature : Option String)
  | exn (msg : String)

/-- The RPC environment of one `send_spl_token_transfer` call. -/
structure RpcEnv where
  blockhash : ℕ → Option String
  submit : ℕ → SubmitOutcome
  ata_check : Except String Bool

/-- The retry loop of `send_spl_token_transfer` (`solana_tx.py`, lines
403-481): `for attempt in range(MAX_BLOCKHASH_RETRIES + 1)`, fetching a
fresh blockhash inside the loop on every attempt; a falsy blockhash
returns immediately; a JSON-RPC error retries only when it matches the
blockhash patterns and retries remain, else returns the error; a missing
result signature returns "No signature returned"; an exception retries
while retries remain, else falls through to the post-loop
`last_error or "Transaction failed after retries"` return. -/
def sendAttempts (env : RpcEnv) :
    List ℕ → Option String → TransactionResult × List (ℕ × String)
  | [], last_error =>
      ({ success := false, signature := none,
         error := some (pyOrStr last_error "Transaction failed after retries") }, [])
  | attempt :: rest, _last_error =>
      let bh := env.blockhash attempt
      if ¬pyTruthyStr bh then
        ({ success := false, signature := none,
           error := some "Failed to get blockhash" }, [])
      else
        let bhs := bh.getD ""
        match env.submit attempt with
        | .errorResp msg =>
            if is_blockhash_error msg ∧ attempt < MAX_BLOCKHASH_RETRIES then
              let next := sendAttempts env rest (some msg)
              (next.1, (attempt, bhs) :: next.2)
            else
              ({ success := false, signature := none, error := some msg },
               [(attempt, bhs)])
        | .ok sig =>
            if pyTruthyStr sig then
              ({ success := true, signature := sig, error := none },
               [(attempt, bhs)])
            else
              ({ success := false, signature := none,
                 error := some "No signature returned" }, [(attempt, bhs)])
        | .exn msg =>
            if attempt < MAX_BLOCKHASH_RETRIES then
              let next := sendAttempts env rest (some msg)
              (next.1, (attempt, bhs) :: next.2)
            else
              ({ success := false, signature := none,
                 error := some (pyOrStr (some msg)
                   "Transaction failed after retries") }, [(attempt, bhs)])

/-- `send_spl_token_transfer` from `solana_tx.py`, lines 291-481: amount
bounds are validated before any network interaction; then the one-off ATA
existence check (an exception there aborts); then the retry loop over
`range(MAX_BLOCKHASH_RETRIES + 1)`. -/
def send_spl_token_transfer (amount : ℤ) (env : RpcEnv) :
    TransactionResult × List (ℕ × String) :=
  if amount ≤ 0 then
    ({ success := false, signature := none,
       error := some "Amount must be positive" }, [])
  else if amount > MAX_TOKEN_AMOUNT then
    ({ success := false, signature := none,
       error := some "Amount exceeds maximum (1000000000000000000)" }, [])
  else
    match env.ata_check with
    | .error e =>
        ({ success := false, signature := none,
           error := some ("ATA check failed: " ++ e) }, [])
    | .ok _ata_exists =>
        sendAttempts env (List.range (MAX_BLOCKHASH_RETRIES + 1)) none

theorem pyTruthyStr_some_getD {o : Option String} (h : pyTruthyStr o = true) :
    o = some (o.getD "") := by
  cases o with
  | none => simp [pyTruthyStr] at h
  | some s => rfl

theorem sendAttempts_trace_fst (env : RpcEnv) (attempts : List ℕ)
    (le : Option String) :
    ((sendAttempts env attempts le).2.map Prod.fst)
      = attempts.take (sendAttempts env attempts le).2.length := by
  induction attempts generalizing le with
  | nil => rfl
  | cons attempt rest ih =>
      rw [sendAttempts]
      by_cases hbh : pyTruthyStr (env.blockhash attempt) = true
      · rw [if_neg (by simp [hbh])]
        rcases hsub : env.submit attempt with msg | sig | msg <;> dsimp only
        · by_cases hc : is_blockhash_error msg = true ∧ attempt < MAX_BLOCKHASH_RETRIES
          · rw [if_pos hc]
            simp only [List.map_cons, List.length_cons, List.take_succ_cons]
            rw [ih (some msg)]
          · rw [if_neg hc]
            rfl
        · by_cases hs : pyTruthyStr sig = true
          · rw [if_pos hs]
            rfl
          · rw [if_neg hs]
            rfl
        · by_cases hc : attempt < MAX_BLOCKHASH_RETRIES
          · rw [if_pos hc]
            simp only [List.map_cons, List.length_cons, List.take_succ_cons]
            rw [ih (some msg)]
          · rw [if_neg hc]
            rfl
      · rw [if_pos (by simp [hbh])]
        rfl

theorem sendAttempts_trace_blockhash (env : RpcEnv) (attempts : List ℕ)
    (le : Option String) :
    ∀ p ∈ (sendAttempts env attempts le).2, env.blockhash p.1 = some p.2 := by
  induction attempts generalizing le with
  | nil => intro p hp; simp [sendAttempts] at hp
  | cons attempt rest ih =>
      intro p hp
      rw [sendAttempts] at hp
      by_cases hbh : pyTruthyStr (env.blockhash attempt) = true
      · rw [if_neg (by simp [hbh])] at hp
        have hself : env.blockhash attempt
            = some ((env.blockhash attempt).getD "") := pyTruthyStr_some_getD hbh
        rcases hsub : env.submit attempt with msg | sig | msg <;>
          rw [hsub] at hp <;> dsimp only at hp
        · by_cases hc : is_blockhash_error msg = true ∧ attempt < MAX_BLOCKHASH_RETRIES
          · rw [if_pos hc] at hp
            rcases List.mem_cons.mp hp with rfl | hmem
            · exact hself
            · exact ih (some msg) p hmem
          · rw [if_neg hc] at hp
            rcases List.mem_cons.mp hp with rfl | hmem
            · exact hself
            · simp at hmem
        · by_cases hs : pyTruthyStr sig = true
          · rw [if_pos hs] at hp
            rcases List.mem_cons.mp hp with rfl | hmem
            · exact hself
            · simp at hmem
          · rw [if_neg hs] at hp
            rcases List.mem_cons.mp hp with rfl | hmem
            · exact hself
            · simp at hmem
        · by_cases hc : attempt < MAX_BLOCKHASH_RETRIES
          · rw [if_pos hc] at hp
            rcases List.mem_cons.mp hp with rfl | hmem
            · exact hself
            · exact ih (some msg) p hmem
          · rw [if_neg hc] at hp
            rcases List.mem_cons.mp hp with rfl | hmem
            · exact hself
            · simp at hmem
      · rw [if_pos (by simp [hbh])] at hp
        simp at hp

/-- Counterexample to C9 as stated: a transport exception
("connection reset by peer", not a stale-blockhash-class error) on the
first attempt is retried — the code catches any exception and continues
while retries remain — and the second attempt succeeds.  The claim says
any non-stale error class fails immediately without retrying. -/
theorem C9_send_retry_policy_counterexample :
    is_blockhash_error "connection reset by peer" = false
    ∧ send_spl_token_transfer 5
        { blockhash := fun k => some (if k = 0 then "bh0" else "bh1"),
          submit := fun k =>
            if k = 0 then .exn "connection reset by peer" else .ok (some "sig1"),
          ata_check := .ok true }
      = ({ success := true, signature := some "sig1", error := none },
         [(0, "bh0"), (1, "bh1")]) := by
  constructor
  · decide
  · decide

/-- Claim C9 amended: amount bounds are validated before any network
interaction (the result is environment-independent and carries the exact
bound error); every submission uses the blockhash fetched in its own
attempt — the trace of submissions is attempts `0, 1, …, k-1` (`k ≤ 3`,
so at most 2 retries), each paired with its own fresh fetch, never
reused; a non-stale-class JSON-RPC error on the first attempt fails
immediately with exactly one submission; and — diverging from the
original claim — a raised exception is retried while retries remain. -/
theorem C9_send_retry_policy_amended :
    (∀ (amount : ℤ) (env : RpcEnv), amount ≤ 0 →
        send_spl_token_transfer amount env
          = ({ success := false, signature := none,
               error := some "Amount must be positive" }, []))
    ∧ (∀ (amount : ℤ) (env : RpcEnv), MAX_TOKEN_AMOUNT < amount →
        send_spl_token_transfer amount env
          = ({ success := false, signature := none,
               error := some "Amount exceeds maximum (1000000000000000000)" }, []))
    ∧ (∀ (amount : ℤ) (env : RpcEnv),
        ((send_spl_token_transfer amount env).2.map Prod.fst
            = List.range (send_spl_token_transfer amount env).2.length)
          ∧ (send_spl_token_transfer amount env).2.length
              ≤ MAX_BLOCKHASH_RETRIES + 1
          ∧ ∀ p ∈ (send_spl_token_transfer amount env).2,
              env.blockhash p.1 = some p.2)
    ∧ (∀ (amount : ℤ) (env : RpcEnv) (b : Bool) (b0 m : String),
        0 < amount → amount ≤ MAX_TOKEN_AMOUNT → env.ata_check = .ok b →
        env.blockhash 0 = some b0 → b0 ≠ "" →
        env.submit 0 = .errorResp m → is_blockhash_error m = false →
        send_spl_token_transfer amount env
          = ({ success := false, signature := none, error := some m },
             [(0, b0)]))
    ∧ (∀ (amount : ℤ) (env : RpcEnv) (b : Bool) (b0 m : String),
        0 < amount → amount ≤ MAX_TOKEN_AMOUNT → env.ata_check = .ok b →
        env.blockhash 0 = some b0 → b0 ≠ "" →
        env.submit 0 = .exn m →
        send_spl_token_transfer amount env
          = ((sendAttempts env [1, 2] (some m)).1,
             (0, b0) :: (sendAttempts env [1, 2] (some m)).2)) := by
  refine ⟨?_, ?_, ?_, ?_, ?_⟩
  · intro amount env h
    rw [send_spl_token_transfer, if_pos h]
  · intro amount env h
    rw [send_spl_token_transfer, if_neg (by unfold MAX_TOKEN_AMOUNT at h; omega),
        if_pos h]
  · intro amount env
    rw [send_spl_token_transfer]
    by_cases h1 : amount ≤ 0
    · rw [if_pos h1]
      simp
    · rw [if_neg h1]
      by_cases h2 : amount > MAX_TOKEN_AMOUNT
      · rw [if_pos h2]
        simp
      · rw [if_neg h2]
        rcases hata : env.ata_check with e | b
        · simp
        · dsimp only
          have hfst := sendAttempts_trace_fst env
            (List.range (MAX_BLOCKHASH_RETRIES + 1)) none
          have hlen : (sendAttempts env
              (List.range (MAX_BLOCKHASH_RETRIES + 1)) none).2.length
              ≤ MAX_BLOCKHASH_RETRIES + 1 := by
            have := congrArg List.length hfst
            rw [List.length_map, List.length_take, List.length_range] at this
            omega
          refine ⟨?_, hlen, sendAttempts_trace_blockhash env _ none⟩
          rw [hfst, List.take_range]
          congr 1
          omega
  · intro amount env b b0 m h1 h2 hata hb0 hb0ne hsub hm
    rw [send_spl_token_transfer, if_neg (by omega), if_neg (by omega), hata]
    dsimp only
    have hr : List.range (MAX_BLOCKHASH_RETRIES + 1) = [0, 1, 2] := rfl
    rw [hr, sendAttempts]
    rw [if_neg (by simp [pyTruthyStr, hb0, hb0ne]), hsub]
    dsimp only
    rw [if_neg (by simp [hm]), hb0]
    rfl
  · intro amount env b b0 m h1 h2 hata hb0 hb0ne hsub
    rw [send_spl_token_transfer, if_neg (by omega), if_neg (by omega), hata]
    dsimp only
    have hr : List.range (MAX_BLOCKHASH_RETRIES + 1) = [0, 1, 2] := rfl
    rw [hr, sendAttempts]
    rw [if_neg (by simp [pyTruthyStr, hb0, hb0ne]), hsub]
    dsimp only
    rw [if_pos (by unfold MAX_BLOCKHASH_RETRIES; omega), hb0]
    rfl

/-- A concrete RPC environment whose first submission reports a terminal
(non-blockhash) RPC error. -/
def envC9terminal : RpcEnv :=
  { blockhash := fun _ => some "bh",
    submit := fun _ => .errorResp "insufficient funds",
    ata_check := .ok true }

/-- A concrete RPC environment whose first attempt raises a transport
exception and whose second attempt succeeds. -/
def envC9exn : RpcEnv :=
  { blockhash := fun k => some (if k = 0 then "bh0" else "bh1"),
    submit := fun k =>
      if k = 0 then .exn "connection reset by peer" else .ok (some "sig1"),
    ata_check := .ok true }

/-- Witness for the amended C9 at concrete inputs: bound rejections,
immediate failure on a terminal RPC error after exactly one submission,
and the exception-retry continuation. -/
theorem C9_send_retry_policy_amended_witness :
    send_spl_token_transfer (-1) envC9terminal
        = ({ success := false, signature := none,
             error := some "Amount must be positive" }, [])
    ∧ send_spl_token_transfer (10 ^ 18 + 1) envC9terminal
        = ({ success := false, signature := none,
             error := some "Amount exceeds maximum (1000000000000000000)" }, [])
    ∧ send_spl_token_transfer 5 envC9terminal
        = ({ success := false, signature := none,
             error := some "insufficient funds" }, [(0, "bh")])
    ∧ send_spl_token_transfer 5 envC9exn
        = ((sendAttempts envC9exn [1, 2] (some "connection reset by peer")).1,
           (0, "bh0") :: (sendAttempts envC9exn [1, 2]
             (some "connection reset by peer")).2) :=
  ⟨C9_send_retry_policy_amended.1 (-1) envC9terminal (by norm_num),
   C9_send_retry_policy_amended.2.1 (10 ^ 18 + 1) envC9terminal
     (by norm_num [MAX_TOKEN_AMOUNT]),
   C9_send_retry_policy_amended.2.2.2.1 5 envC9terminal true "bh"
     "insufficient funds" (by norm_num) (by norm_num [MAX_TOKEN_AMOUNT])
     rfl rfl (by decide) rfl (by decide),
   C9_send_retry_policy_amended.2.2.2.2 5 envC9exn true "bh0"
     "connection reset by peer" (by norm_num) (by norm_num [MAX_TOKEN_AMOUNT])
     rfl rfl (by decide) rfl⟩

/-! ## Sequential transfer executor and settlement ledger
(`distribution.py`, `_execute_token_transfers`, `execute_distribution`,
`get_failed_transfers`)

The per-recipient `send_spl_token_transfer` outcomes are supplied per
call index (`Except.error` = exception raised).  The Python `results`
dict, keyed by wallet and populated in recipient order, is an association
list; `dict.get` is `lookupResult`. -/

/-- `results.get(wallet)`: `None` for a missing key, else the stored
(possibly `None`) signature. -/
def lookupResult (results : List (String × Option String)) (w : String) :
    Option String :=
  (results.find? (fun p => p.1 == w)).bind (fun p => p.2)

/-- The submission loop of `_execute_token_transfers` (`distribution.py`,
lines 512-541): for each recipient in order, `results[wallet]` is the
signature when the send succeeded with a truthy signature, else `None`
(failure or exception).  Unconfigured credentials return an empty dict
(lines 500-504). -/
def execute_token_transfers (configured : Bool)
    (send : ℕ → Except String TransactionResult)
    (recipients : List RecipientShare) : List (String × Option String) :=
  if ¬configured then []
  else recipients.enum.map (fun p =>
    (p.2.wallet,
      match send p.1 with
      | .error _ => none
      | .ok result =>
          if result.success && pyTruthyStr result.signature then result.signature
          else none))

/-- The batch-confirmation loop of `_execute_token_transfers`
(`distribution.py`, lines 543-565): it polls the collected signatures and
logs unconfirmed ones, but never updates `results` — the dict passes
through unchanged. -/
def applyBatchConfirmation (results : List (String × Option String))
    (_confirmed : String → Bool) : List (String × Option String) :=
  results

/-- `_execute_token_transfers` end to end: submissions, then batch
confirmation. -/
def execute_token_transfers_confirmed (configured : Bool)
    (send : ℕ → Except String TransactionResult)
    (confirm : String → Bool)
    (recipients : List RecipientShare) : List (String × Option String) :=
  applyBatchConfirmation (execute_token_transfers configured send recipients)
    confirm

/-- The `recipient_data` bulk insert of `execute_distribution`
(`distribution.py`, lines 405-423): `amount_received` is the planned
amount when `transfer_results.get(wallet)` is truthy, else 0, and
`tx_signature` is the stored value (row ids are the insertion indices). -/
def buildRecipientRows (distribution_id : ℕ)
    (recipients : List RecipientShare)
    (transfer_results : List (String × Option String)) :
    List DistributionRecipientRow :=
  recipients.enum.map (fun p =>
    { id := p.1, distribution_id := distribution_id, wallet := p.2.wallet,
      amount_received :=
        if pyTruthyStr (lookupResult transfer_results p.2.wallet)
        then p.2.amount else 0,
      tx_signature := lookupResult transfer_results p.2.wallet })

/-- `get_failed_transfers` from `distribution.py`, lines 645-671: rows
whose `tx_signature` IS NULL, optionally restricted to one
distribution. -/
def get_failed_transfers (rows : List DistributionRecipientRow)
    (distribution_id : Option ℕ) : List DistributionRecipientRow :=
  rows.filter (fun row => row.tx_signature == none
    && (match distribution_id with
        | some d => row.distribution_id == d
        | none => true))

theorem lookup_enumFrom_map (f : ℕ → Option String)
    (xs : List RecipientShare) (n i : ℕ) (r : RecipientShare)
    (hnodup : (xs.map (fun x => x.wallet)).Nodup)
    (hi : xs[i]? = some r) :
    lookupResult ((xs.enumFrom n).map (fun p => (p.2.wallet, f p.1))) r.wallet
      = f (n + i) := by
  induction xs generalizing n i with
  | nil => simp at hi
  | cons x xs ih =>
      rw [List.enumFrom_cons, List.map_cons]
      cases i with
      | zero =>
          have hrx : x = r := by simpa using hi
          subst hrx
          rw [lookupResult, List.find?_cons_of_pos _ (by simp)]
          rfl
      | succ j =>
          have hj : xs[j]? = some r := by simpa using hi
          have hmem : r ∈ xs := by
            rcases List.getElem?_eq_some.mp hj with ⟨hlt, hget⟩
            exact hget ▸ List.getElem_mem hlt
          rw [List.map_cons] at hnodup
          rcases List.nodup_cons.mp hnodup with ⟨hx, hxs⟩
          have hne : x.wallet ≠ r.wallet := by
            intro heq
            exact hx (heq ▸ List.mem_map_of_mem (fun y => y.wallet) hmem)
          rw [lookupResult, List.find?_cons_of_neg _ (by simp [hne])]
          have := ih (n + 1) j hxs hj
          rw [lookupResult] at this
          rw [this]
          congr 1
          omega

/-- Claim C10: once a transfer submission returns a signature, batch
confirmation never demotes the executor's result — the confirmation step
is the identity on the results dict, so the result map keeps the
signature even when confirmation reports failure or timeout (it is
quantified over every confirmation outcome); consequently the ledger row
for such a recipient records `amount_received` equal to the full planned
amount with that signature, and it never appears in
`get_failed_transfers`, which selects exactly the rows with a null
`tx_signature`. -/
theorem C10_signature_kept_unconfirmed :
    (∀ (configured : Bool) (send : ℕ → Except String TransactionResult)
        (confirm : String → Bool) (rs : List RecipientShare),
        execute_token_transfers_confirmed configured send confirm rs
          = execute_token_transfers configured send rs)
    ∧ (∀ (rows : List DistributionRecipientRow) (row : DistributionRecipientRow),
        row ∈ get_failed_transfers rows none
          ↔ row ∈ rows ∧ row.tx_signature = none)
    ∧ (∀ (send : ℕ → Except String TransactionResult) (confirm : String → Bool)
        (rs : List RecipientShare) (i : ℕ) (r : RecipientShare)
        (res : TransactionResult) (s : String) (d : ℕ),
        (rs.map (fun x => x.wallet)).Nodup →
        rs[i]? = some r →
        send i = .ok res → res.success = true → res.signature = some s →
        s ≠ "" →
        lookupResult (execute_token_transfers_confirmed true send confirm rs)
            r.wallet = some s
          ∧ (buildRecipientRows d rs
              (execute_token_transfers_confirmed true send confirm rs))[i]?
              = some { id := i, distribution_id := d, wallet := r.wallet,
                       amount_received := r.amount, tx_signature := some s }
          ∧ ({ id := i, distribution_id := d, wallet := r.wallet,
               amount_received := r.amount, tx_signature := some s }
              : DistributionRecipientRow)
              ∉ get_failed_transfers
                (buildRecipientRows d rs
                  (execute_token_transfers_confirmed true send confirm rs))
                none) := by
  have hchar : ∀ (rows : List DistributionRecipientRow)
      (row : DistributionRecipientRow),
      row ∈ get_failed_transfers rows none
        ↔ row ∈ rows ∧ row.tx_signature = none := by
    intro rows row
    rw [get_failed_transfers, List.mem_filter]
    simp
  refine ⟨fun _ _ _ _ => rfl, hchar, ?_⟩
  intro send confirm rs i r res s d hnodup hi hsend hsucc hsig hs
  have hkey := lookup_enumFrom_map (fun j =>
      match send j with
      | .error _ => none
      | .ok result =>
          if result.success && pyTruthyStr result.signature then result.signature
          else none)
    rs 0 i r hnodup hi
  rw [Nat.zero_add] at hkey
  have hval : (match send i with
      | Except.error _ => (none : Option String)
      | Except.ok result =>
          if result.success && pyTruthyStr result.signature then result.signature
          else none) = some s := by
    rw [hsend]
    simp [hsucc, hsig, pyTruthyStr, hs]
  have hlook : lookupResult (execute_token_transfers_confirmed true send confirm rs)
      r.wallet = some s := by
    rw [execute_token_transfers_confirmed, applyBatchConfirmation,
        execute_token_transfers, if_neg (by simp)]
    rw [show rs.enum = rs.enumFrom 0 from rfl]
    exact hkey.trans hval
  refine ⟨hlook, ?_, ?_⟩
  · rw [buildRecipientRows, List.getElem?_map, List.getElem?_enum, hi]
    simp only [Option.map_some']
    rw [hlook]
    simp [pyTruthyStr, hs]
  · intro hmem
    rcases (hchar _ _).mp hmem with ⟨_, habs⟩
    simp at habs

/-- Two recipients for the C10 witness scenario. -/
def rsC10 : List RecipientShare :=
  [{ wallet := "w1", twab := 1, multiplier := 1, hash_power := 1,
     share_percentage := 50, amount := 10 },
   { wallet := "w2", twab := 1, multiplier := 1, hash_power := 1,
     share_percentage := 50, amount := 20 }]

/-- Send outcomes for the C10 witness: the first transfer is submitted
successfully, the second raises. -/
def sendC10 : ℕ → Except String TransactionResult := fun k =>
  if k = 0 then
    .ok { success := true, signature := some "sigA", error := none }
  else .error "connection error"

/-- Witness for C10: with every confirmation reporting failure
(`fun _ => false`), the submitted signature is kept in the result map,
the ledger row records the full planned amount with that signature, and
the row is not selected by `get_failed_transfers`. -/
theorem C10_signature_kept_unconfirmed_witness :
    lookupResult
        (execute_token_transfers_confirmed true sendC10 (fun _ => false) rsC10)
        "w1" = some "sigA"
    ∧ (buildRecipientRows 7 rsC10
        (execute_token_transfers_confirmed true sendC10 (fun _ => false) rsC10))[0]?
        = some { id := 0, distribution_id := 7, wallet := "w1",
                 amount_received := 10, tx_signature := some "sigA" }
    ∧ ({ id := 0, distribution_id := 7, wallet := "w1",
         amount_received := 10, tx_signature := some "sigA" }
        : DistributionRecipientRow)
        ∉ get_failed_transfers
          (buildRecipientRows 7 rsC10
            (execute_token_transfers_confirmed true sendC10 (fun _ => false)
              rsC10)) none :=
  C10_signature_kept_unconfirmed.2.2 sendC10 (fun _ => false) rsC10 0
    { wallet := "w1", twab := 1, multiplier := 1, hash_power := 1,
      share_percentage := 50, amount := 10 }
    { success := true, signature := some "sigA", error := none }
    "sigA" 7 (by simp [rsC10]) rfl rfl rfl rfl (by decide)
